import Mathlib

/-! # Artifactory tests exporter: startup budget, probe loop and metrics collector

A shallow embedding of `src/main.go` and `src/config.go`.

Conventions of the embedding:

* A finite Go `float64` value is the rational it denotes, and a `float64`
  operation rounds its exact result to the nearest binary64 value, ties to
  even (`round64`).  Infinities, NaN and overflow past the binary64 range have
  no counterpart: the quantities of this program stay far below that range,
  and the one division by zero (the budget for no file) is never used.
  `time.Duration` is an `int64` number of nanoseconds.
* A Go `map[string]T` that is only read with `m[k]` is a total function
  `String → T` whose value at an absent key is Go's zero value; writing
  `m[k] = v` is `Function.update`.  A map that is ranged over is the list of its
  entries in the order the iteration visits them.
* `glog.Fatal` and a panic are the `Except.error` result; logging that does
  not influence the computed values is left out.
* Results of the operating system, the network and the clock are inputs
  (event records) of the function that consumes them.
* The Prometheus client library is not part of `src/`.  What the program uses
  of it is embedded after its behaviour: a registry refuses a second collector
  of the same name (`MustRegister` panics), a histogram vector makes the child
  for a label value at the first `WithLabelValues` (with the default buckets
  for an empty bucket list, and a panic for bounds that do not increase),
  and `Gather` lists the metric families sorted by name and the samples of a
  family sorted by label value.
-/

namespace ArtifactoryExporter

/-! ## `float64` arithmetic -/

/-- Rounding of a rational to the nearest integer, a tie going to the even
neighbour. -/
def roundHalfEven (x : ℚ) : Int :=
  if x - ⌊x⌋ < 1 / 2 then ⌊x⌋
  else if 1 / 2 < x - ⌊x⌋ then ⌊x⌋ + 1
  else if ⌊x⌋ % 2 = 0 then ⌊x⌋
  else ⌊x⌋ + 1

/-- The binary64 value nearest to a rational, ties to even: 53 significant
bits at the binary exponent of the value, which is at least -1022. -/
def round64 (q : ℚ) : ℚ :=
  if q = 0 then 0
  else
    (roundHalfEven (q / (2 : ℚ) ^ (max (Int.log 2 |q|) (-1022) - 52)) : ℚ)
      * (2 : ℚ) ^ (max (Int.log 2 |q|) (-1022) - 52)

/-- The `float64` sum. -/
def f64add (a b : ℚ) : ℚ := round64 (a + b)

/-- The `float64` difference. -/
def f64sub (a b : ℚ) : ℚ := round64 (a - b)

/-- The `float64` product. -/
def f64mul (a b : ℚ) : ℚ := round64 (a * b)

/-- The `float64` quotient, for a divisor other than 0. -/
def f64div (a b : ℚ) : ℚ := round64 (a / b)

/-! ## Data model (`config.go`) -/

/-- Go `time.Duration`: a count of nanoseconds. -/
abbrev Duration := Int

/-- One second as a `time.Duration`. -/
def Second : Duration := 1000000000

/-- Go `Duration.Seconds()`: with `sec := d / Second` and `nsec := d % Second`
(integer division truncating toward zero), the `float64` value
`float64(sec) + float64(nsec)/1e9`. -/
def Duration.Seconds (d : Duration) : ℚ :=
  f64add (round64 ((Int.tdiv d Second : Int) : ℚ))
    (f64div (round64 ((Int.tmod d Second : Int) : ℚ)) 1000000000)

/-- The struct `TestFileParams` of `config.go`. -/
structure TestFileParams where
  Size : Int
  HistogramBucketPush : List ℚ
  HistogramBucketPull : List ℚ
  TimeoutPush : Duration
  TimeoutPull : Duration
  VerifyChecksum : Bool
  deriving DecidableEq

/-- The struct `ArtifactoryParams` of `config.go`. -/
structure ArtifactoryParams where
  URL : String
  RepoPath : String
  deriving DecidableEq

/-- The struct `Config` of `config.go`.  `TestFiles` is `none` for a nil map and
`some entries` for a map with those entries (possibly none at all). -/
structure Config where
  ListenAddress : String
  MetricsPath : String
  Interval : Duration
  Timeout : Duration
  TestFilesPath : String
  Debug : Bool
  Artifactory : ArtifactoryParams
  TestFiles : Option (List (String × TestFileParams))

/-- The entries a `range` over the map visits; a nil map has none. -/
def mapEntries {α : Type} : Option (List (String × α)) → List (String × α)
  | none => []
  | some entries => entries

/-! ## Startup (`main`) -/

/-- The tests interval resolved by `main` (lines 355-365): 60 seconds when the
configuration leaves it unset, the configured value when it is at least 60
seconds, fatal otherwise. -/
def resolveTestsInterval (interval : Duration) : Except String ℚ :=
  if interval.Seconds ≠ 0 then
    if interval.Seconds ≥ 60 then .ok interval.Seconds
    else .error "Tests interval should be more or equal 60 seconds"
  else .ok 60

/-- The handler timeout resolved by `main` (lines 367-377). -/
def resolveHandlerTimeout (timeout : Duration) : Except String ℚ :=
  if timeout.Seconds ≠ 0 then
    if timeout.Seconds ≤ 5 ∧ timeout.Seconds > 0 then .ok timeout.Seconds
    else .error "Handler timeout should be less or equal 5 seconds"
  else .ok 5

/-- The budget formula of `main` line 399,
`testsInterval/2.0/float64(len(testFiles)) - 1`, in exact arithmetic. -/
def maxFileTimeout (testsInterval : ℚ) (fileCount : Nat) : ℚ :=
  testsInterval / 2 / (fileCount : ℚ) - 1

/-- The budget as `main` line 399 computes it, in `float64`:
`testsInterval/2.0/float64(len(testFiles)) - 1`.  With no file Go's quotient
is `+Inf`; the value here is then of no meaning, and none is used: the loop
over the files has no iteration. -/
def maxFileTimeoutFloat64 (testsInterval : ℚ) (fileCount : Nat) : ℚ :=
  f64sub (f64div (f64div testsInterval 2) (round64 (fileCount : ℚ))) 1

/-- The push (lines 426-435) and pull (lines 436-445) timeout of one file:
an explicit timeout must lie in `(0, maxFileTimeout]`, an unset one becomes
`maxFileTimeout`.  The text of the fatal message is shortened. -/
def resolveTimeout (leg : String) (timeout : Duration) (maxTimeout : ℚ) : Except String ℚ :=
  if timeout.Seconds ≠ 0 then
    if timeout.Seconds ≤ maxTimeout ∧ timeout.Seconds > 0 then .ok timeout.Seconds
    else .error ("For full-cycle interval 'timeout_" ++ leg ++
      "' parameter should be less or equal the maximum and more than '0'")
  else .ok maxTimeout

/-- What the file system answers during startup. -/
structure StartupEnv where
  /-- The error, if any, of creating the test file at the given full path. -/
  createFile : String → Option String
  /-- The result of `hash_file_md5` at the given full path. -/
  hashFile : String → Except String String

/-- The function `createTestFiles`: a size of 0 or less is an error; otherwise
the outcome is that of the file system. -/
def createTestFiles (env : StartupEnv) (fileFullPath : String) (fileSize : Int) :
    Except String Unit :=
  if fileSize ≤ 0 then .error "File size can't be 0 or less"
  else match env.createFile fileFullPath with
    | some err => .error err
    | none => .ok ()

/-- A child histogram of a `HistogramVec`: the bucket upper bounds with the
number of observations at most each bound, the number of observations and
their sum. -/
structure Histogram where
  buckets : List (ℚ × Nat)
  sampleCount : Nat
  sampleSum : ℚ
  deriving DecidableEq

/-- A `prometheus.HistogramVec` with the one variable label `file_name`: its
name, the `Buckets` of its options as they were given, and its children by
label value, in the order of their making.  `NewHistogramVec` and `observe`
make vectors whose children have distinct label values. -/
structure HistogramVec where
  name : String
  buckets : List ℚ
  children : List (String × Histogram)
  deriving DecidableEq

/-- The vector `prometheus.NewHistogramVec` returns: it keeps the options and
has no child yet. -/
def NewHistogramVec (name : String) (buckets : List ℚ) : HistogramVec :=
  { name := name, buckets := buckets, children := [] }

/-- The maps `main` fills in its loop over the test files. -/
structure StartupMaps where
  artifactoryPushDurationHistograms : String → Option HistogramVec
  artifactoryPullDurationHistograms : String → Option HistogramVec
  filesTimeoutPush : String → ℚ
  filesTimeoutPull : String → ℚ
  filesChecksum : String → String

/-- The empty maps `main` makes at lines 392-396. -/
def StartupMaps.empty : StartupMaps :=
  { artifactoryPushDurationHistograms := fun _ => none
    artifactoryPullDurationHistograms := fun _ => none
    filesTimeoutPush := fun _ => 0
    filesTimeoutPull := fun _ => 0
    filesChecksum := fun _ => "" }

/-- The body of the loop of `main` over the test files (lines 400-456). -/
def startupFile (env : StartupEnv) (testFilesDir : String) (maxTimeout : ℚ)
    (maps : StartupMaps) (entry : String × TestFileParams) : Except String StartupMaps :=
  let fileName := entry.1
  let fileParams := entry.2
  let fileFullPath := testFilesDir ++ "/" ++ fileName
  match createTestFiles env fileFullPath fileParams.Size with
  | .error err => .error err
  | .ok _ =>
    let pushHist := NewHistogramVec
      ("artifactory_test_push_" ++ toString fileParams.Size ++ "mb_duration_seconds_histogram")
      fileParams.HistogramBucketPush
    let pullHist := NewHistogramVec
      ("artifactory_test_pull_" ++ toString fileParams.Size ++ "mb_duration_seconds_histogram")
      fileParams.HistogramBucketPull
    match resolveTimeout "push" fileParams.TimeoutPush maxTimeout with
    | .error err => .error err
    | .ok timeoutPush =>
      match resolveTimeout "pull" fileParams.TimeoutPull maxTimeout with
      | .error err => .error err
      | .ok timeoutPull =>
        let maps1 : StartupMaps :=
          { artifactoryPushDurationHistograms :=
              Function.update maps.artifactoryPushDurationHistograms fileName (some pushHist)
            artifactoryPullDurationHistograms :=
              Function.update maps.artifactoryPullDurationHistograms fileName (some pullHist)
            filesTimeoutPush := Function.update maps.filesTimeoutPush fileName timeoutPush
            filesTimeoutPull := Function.update maps.filesTimeoutPull fileName timeoutPull
            filesChecksum := maps.filesChecksum }
        if fileParams.VerifyChecksum then
          match env.hashFile fileFullPath with
          | .ok hash =>
            .ok { maps1 with filesChecksum := Function.update maps1.filesChecksum fileName hash }
          | .error err => .error err
        else .ok maps1

/-- The loop of `main` over the test files, in the order of the iteration. -/
def startupFiles (env : StartupEnv) (testFilesDir : String) (maxTimeout : ℚ) :
    StartupMaps → List (String × TestFileParams) → Except String StartupMaps
  | maps, [] => .ok maps
  | maps, entry :: rest =>
    match startupFile env testFilesDir maxTimeout maps entry with
    | .error err => .error err
    | .ok maps1 => startupFiles env testFilesDir maxTimeout maps1 rest

/-- What `main` hands to the probe loop and to the metrics handler. -/
structure Startup where
  testsInterval : ℚ
  timeoutHandlerSeconds : ℚ
  testFilesDir : String
  maxTimeout : ℚ
  maps : StartupMaps

/-- The function `main` from the loaded configuration up to the start of the
probe loop (lines 355-456): `.error` is a fatal exit. -/
def startup (env : StartupEnv) (conf : Config) : Except String Startup :=
  match resolveTestsInterval conf.Interval with
  | .error err => .error err
  | .ok testsInterval =>
    match resolveHandlerTimeout conf.Timeout with
    | .error err => .error err
    | .ok timeoutHandlerSeconds =>
      let testFilesDir :=
        if conf.TestFilesPath = "" then
          "/opt/prometheus/prometheus-artifactory-tests-exporter/test-files"
        else conf.TestFilesPath
      let testFiles := mapEntries conf.TestFiles
      let maxTimeout := maxFileTimeoutFloat64 testsInterval testFiles.length
      match startupFiles env testFilesDir maxTimeout StartupMaps.empty testFiles with
      | .error err => .error err
      | .ok maps =>
        .ok { testsInterval := testsInterval
              timeoutHandlerSeconds := timeoutHandlerSeconds
              testFilesDir := testFilesDir
              maxTimeout := maxTimeout
              maps := maps }

/-! ## The probe loop (`makeTests`) -/

/-- The package-level result maps `pushDuration`, `pushSuccess`, `pullDuration`
and `pullSuccess`. -/
structure Results where
  pushDuration : String → ℚ
  pushSuccess : String → ℚ
  pullDuration : String → ℚ
  pullSuccess : String → ℚ

/-- The maps right after the four `make` calls at the top of `makeTests`. -/
def Results.empty : Results :=
  { pushDuration := fun _ => 0
    pushSuccess := fun _ => 0
    pullDuration := fun _ => 0
    pullSuccess := fun _ => 0 }

/-- The duration and success value one leg writes to its two maps. -/
structure LegOutcome where
  duration : ℚ
  success : ℚ
  deriving DecidableEq

/-- What the outside world answers during the push leg of one file.  The
deadline of `ctx_push` acts through `response`: a transfer it cuts off is an
error of `http.DefaultClient.Do`. -/
structure PushEvents where
  /-- The error of `os.Open`, if any. -/
  openErr : Option String
  /-- The error of `http.NewRequest`, if any. -/
  requestErr : Option String
  /-- The result of `http.DefaultClient.Do`: an error or the status code. -/
  response : Except String Int
  /-- The value of `time.Since(start_push).Seconds()`. -/
  elapsed : ℚ

/-- What the outside world answers during the pull leg of one file. -/
structure PullEvents where
  /-- The error of `http.NewRequest`, if any. -/
  requestErr : Option String
  /-- The result of `http.DefaultClient.Do`: an error or the status code. -/
  response : Except String Int
  /-- The error of `os.Create` for the downloaded file, if any. -/
  createErr : Option String
  /-- The error of `io.Copy` into the downloaded file, if any. -/
  copyErr : Option String
  /-- The result of `hash_file_md5` on the downloaded file. -/
  hash : Except String String
  /-- The value of `time.Since(start_pull).Seconds()`. -/
  elapsed : ℚ

/-- The push leg of `makeTests` (lines 73-120): the values written to
`pushDuration[fileName]` and `pushSuccess[fileName]`. -/
def pushLeg (ev : PushEvents) : LegOutcome :=
  match ev.openErr with
  | none =>
    match ev.requestErr with
    | none =>
      match ev.response with
      | .ok statusCode =>
        if statusCode = 201 then { duration := ev.elapsed, success := 1 }
        else { duration := 0, success := 0 }
      | .error _ => { duration := 0, success := 0 }
    | some _ => { duration := 0, success := 0 }
  | some _ => { duration := 0, success := 0 }

/-- The pull leg of `makeTests` (lines 122-209): the values written to
`pullDuration[fileName]` and `pullSuccess[fileName]`.  `checksum` is
`filesChecksum[fileName]`. -/
def pullLeg (verifyChecksum : Bool) (checksum : String) (ev : PullEvents) : LegOutcome :=
  match ev.requestErr with
  | none =>
    match ev.response with
    | .ok statusCode =>
      if statusCode = 200 then
        match ev.createErr with
        | none =>
          match ev.copyErr with
          | none =>
            if verifyChecksum then
              match ev.hash with
              | .ok hash =>
                if hash = checksum then { duration := ev.elapsed, success := 1 }
                else { duration := 0, success := 0 }
              | .error _ => { duration := 0, success := 0 }
            else { duration := ev.elapsed, success := 1 }
          | some _ => { duration := 0, success := 0 }
        | some _ => { duration := 0, success := 0 }
      else { duration := 0, success := 0 }
    | .error _ => { duration := 0, success := 0 }
  | some _ => { duration := 0, success := 0 }

/-- The two writes that end the push leg. -/
def commitPush (results : Results) (fileName : String) (outcome : LegOutcome) : Results :=
  { results with
    pushDuration := Function.update results.pushDuration fileName outcome.duration
    pushSuccess := Function.update results.pushSuccess fileName outcome.success }

/-- The two writes that end the pull leg. -/
def commitPull (results : Results) (fileName : String) (outcome : LegOutcome) : Results :=
  { results with
    pullDuration := Function.update results.pullDuration fileName outcome.duration
    pullSuccess := Function.update results.pullSuccess fileName outcome.success }

/-- One pass of the body of the loop over the files in `makeTests` (lines
69-210): the push leg, then the pull leg. -/
def probeFile (filesChecksum : String → String) (results : Results)
    (entry : String × TestFileParams) (push : PushEvents) (pull : PullEvents) : Results :=
  let afterPush := commitPush results entry.1 (pushLeg push)
  commitPull afterPush entry.1 (pullLeg entry.2.VerifyChecksum (filesChecksum entry.1) pull)

/-- The integer a `float64` becomes when its fraction is discarded. -/
def truncate (x : ℚ) : Int := if 0 ≤ x then ⌊x⌋ else ⌈x⌉

/-- Go's conversion of a `float64` to `time.Duration` (an `int64`): the
fraction is discarded.  When the result does not fit `int64`, the value is
whatever the platform gives, `outOfRange`. -/
def toDuration (outOfRange : Duration) (x : ℚ) : Duration :=
  if -2 ^ 63 ≤ truncate x ∧ truncate x < 2 ^ 63 then truncate x else outOfRange

/-- The value of an `int64` operation whose exact result is `x`: it wraps
around modulo `2 ^ 64`. -/
def wrapInt64 (x : Int) : Int := (x + 2 ^ 63) % 2 ^ 64 - 2 ^ 63

/-- The interval as line 211 converts it:
`time.Duration(testsInterval*float64(time.Second))`. -/
def intervalDuration (outOfRange : Duration) (testsInterval : ℚ) : Duration :=
  toDuration outOfRange (f64mul testsInterval 1000000000)

/-- The value `timeToWait` of `makeTests` line 211, for a cycle whose
`time.Since(start_tests)` is `elapsed`. -/
def timeToWait (outOfRange : Duration) (testsInterval : ℚ) (elapsed : Duration) : Duration :=
  wrapInt64 (intervalDuration outOfRange testsInterval - elapsed)

/-- The pause `time.Sleep d` asks for: none when `d` is negative or zero
(it returns immediately), `d` otherwise. -/
def Sleep (d : Duration) : Duration := if d ≤ 0 then 0 else d

/-- The state of the probe loop between two writes to the result maps.  A
probe of a file makes four writes, in this order: `pushDuration[fileName]`
and `pushSuccess[fileName]` when the push leg ends (lines 86-87, 92-93 and
the like), `pullDuration[fileName]` and `pullSuccess[fileName]` when the pull
leg ends (lines 147-148, 153-154 and the like).  The fields `cycle`,
`pushLog` and `pullLog` are bookkeeping of the verification only: the number
of the cycle in progress, and the outcome that the push (pull) leg of each
cycle computed for each file, `0, 0` where no leg ran. -/
structure LoopState where
  results : Results
  /-- The files of the cycle in progress not yet done; the head is the one
  being probed. -/
  pending : List (String × TestFileParams)
  /-- How many of its four writes the probe of the head of `pending` has
  made. -/
  written : Nat
  /-- The outcome of the leg whose two writes are under way: the branch the
  code is in. -/
  leg : LegOutcome
  cycle : Nat
  pushLog : Nat → String → LegOutcome
  pullLog : Nat → String → LegOutcome

/-- What moves the probe loop from one state to the next. -/
inductive LoopEvent where
  /-- The push leg of the file being probed ends and makes its first write,
  to `pushDuration`. -/
  | pushEnds (ev : PushEvents)
  /-- The pull leg of the file being probed ends and makes its first write,
  to `pullDuration`. -/
  | pullEnds (ev : PullEvents)
  /-- The leg that has ended makes its second write, to `pushSuccess` or to
  `pullSuccess`. -/
  | write
  /-- The cycle ends, the loop sleeps, and `range testFiles` of the next
  cycle visits the files in the given order. -/
  | nextCycle (order : List (String × TestFileParams))

/-- The state of `makeTests` when it enters its first cycle, whose
`range testFiles` visits the files in the given order. -/
def loopInit (order : List (String × TestFileParams)) : LoopState :=
  { results := Results.empty
    pending := order
    written := 0
    leg := { duration := 0, success := 0 }
    cycle := 1
    pushLog := fun _ _ => { duration := 0, success := 0 }
    pullLog := fun _ _ => { duration := 0, success := 0 } }

/-- The log with the outcome of one leg entered. -/
def logAt (log : Nat → String → LegOutcome) (cycle : Nat) (fileName : String)
    (outcome : LegOutcome) : Nat → String → LegOutcome :=
  fun n f => if n = cycle ∧ f = fileName then outcome else log n f

/-- One step of `makeTests`: one write to one result map, or the passage to
the next cycle.  An event that does not fit the state (a pull before the push,
an order that is not a permutation of the configured files) leaves the state
as it is. -/
def loopStep (testFiles : List (String × TestFileParams)) (filesChecksum : String → String)
    (s : LoopState) : LoopEvent → LoopState
  | .pushEnds ev =>
    match s.pending, s.written with
    | entry :: _, 0 =>
      { s with
        results := { s.results with
          pushDuration := Function.update s.results.pushDuration entry.1 (pushLeg ev).duration }
        written := 1
        leg := pushLeg ev
        pushLog := logAt s.pushLog s.cycle entry.1 (pushLeg ev) }
    | _, _ => s
  | .pullEnds ev =>
    match s.pending, s.written with
    | entry :: _, 2 =>
      { s with
        results := { s.results with
          pullDuration := Function.update s.results.pullDuration entry.1
            (pullLeg entry.2.VerifyChecksum (filesChecksum entry.1) ev).duration }
        written := 3
        leg := pullLeg entry.2.VerifyChecksum (filesChecksum entry.1) ev
        pullLog := logAt s.pullLog s.cycle entry.1
          (pullLeg entry.2.VerifyChecksum (filesChecksum entry.1) ev) }
    | _, _ => s
  | .write =>
    match s.pending, s.written with
    | entry :: _, 1 =>
      { s with
        results := { s.results with
          pushSuccess := Function.update s.results.pushSuccess entry.1 s.leg.success }
        written := 2 }
    | entry :: rest, 3 =>
      { s with
        results := { s.results with
          pullSuccess := Function.update s.results.pullSuccess entry.1 s.leg.success }
        pending := rest
        written := 0 }
    | _, _ => s
  | .nextCycle order =>
    match s.pending with
    | [] => if order.Perm testFiles then { s with pending := order, cycle := s.cycle + 1 } else s
    | _ :: _ => s

/-- The state after a sequence of events. -/
def loopRun (testFiles : List (String × TestFileParams)) (filesChecksum : String → String)
    (s : LoopState) (events : List LoopEvent) : LoopState :=
  events.foldl (loopStep testFiles filesChecksum) s

/-- The states the probe loop passes through.  The metrics handler runs in
another goroutine and takes no lock, so it can read the result maps in any of
them. -/
def Reachable (testFiles : List (String × TestFileParams)) (filesChecksum : String → String)
    (s : LoopState) : Prop :=
  ∃ order events, order.Perm testFiles ∧ s = loopRun testFiles filesChecksum (loopInit order) events

/-! ### Notions to state what the result maps hold -/

/-- How many of the four writes of the cycle in progress a file has had: all
four when its probe is done, none when its probe has not begun. -/
def LoopState.progress (s : LoopState) (fileName : String) : Nat :=
  match s.pending with
  | [] => 4
  | entry :: rest =>
    if entry.1 = fileName then s.written
    else if fileName ∈ rest.map Prod.fst then 0
    else 4

/-- The cycle that made the write number `i` (from 0 to 3) last stored for a
file: the cycle in progress when the file has had that write in it, the
cycle before otherwise (cycle 0 standing for no write at all). -/
def LoopState.stamp (s : LoopState) (fileName : String) (i : Nat) : Nat :=
  if i < s.progress fileName then s.cycle else s.cycle - 1

/-- The probe of a file is under way: some but not all of its four writes of
the cycle in progress are made. -/
def LoopState.inProbe (s : LoopState) (fileName : String) : Prop :=
  0 < s.progress fileName ∧ s.progress fileName < 4

instance (s : LoopState) (fileName : String) : Decidable (s.inProbe fileName) := by
  unfold LoopState.inProbe
  infer_instance

/-- What holds in every state of the probe loop. -/
def LoopInv (testFiles : List (String × TestFileParams)) (s : LoopState) : Prop :=
  1 ≤ s.cycle ∧
  (s.pending.map Prod.fst).Nodup ∧
  (∀ f ∈ s.pending.map Prod.fst, f ∈ testFiles.map Prod.fst) ∧
  s.written ≤ 3 ∧
  (s.pending = [] → s.written = 0) ∧
  (∀ entry rest, s.pending = entry :: rest →
    (s.written = 1 → s.leg = s.pushLog s.cycle entry.1) ∧
    (s.written = 3 → s.leg = s.pullLog s.cycle entry.1)) ∧
  (∀ f, s.pushLog 0 f = { duration := 0, success := 0 } ∧
    s.pullLog 0 f = { duration := 0, success := 0 }) ∧
  ∀ f ∈ testFiles.map Prod.fst,
    s.results.pushDuration f = (s.pushLog (s.stamp f 0) f).duration ∧
    s.results.pushSuccess f = (s.pushLog (s.stamp f 1) f).success ∧
    s.results.pullDuration f = (s.pullLog (s.stamp f 2) f).duration ∧
    s.results.pullSuccess f = (s.pullLog (s.stamp f 3) f).success

/-! ## The metrics handler (`ArtifactoryCollector`, `artifactoryTestHandler`) -/

/-- The default buckets `prometheus.DefBuckets`, each the `float64` value of
its decimal constant. -/
def DefBuckets : List ℚ :=
  [5 / 1000, 1 / 100, 25 / 1000, 5 / 100, 1 / 10, 25 / 100, 5 / 10, 1, 25 / 10, 5, 10].map round64

/-- Whether every bound is smaller than the next one. -/
def strictlyIncreasing : List ℚ → Bool
  | a :: b :: rest => decide (a < b) && strictlyIncreasing (b :: rest)
  | _ => true

/-- A histogram with the given upper bounds and no observation. -/
def Histogram.new (upperBounds : List ℚ) : Histogram :=
  { buckets := upperBounds.map fun b => (b, 0), sampleCount := 0, sampleSum := 0 }

/-- The making of a child histogram from the `Buckets` of the options
(`newHistogram` of the client library): an empty list stands for the default
buckets, and bounds that are not strictly increasing make it panic.  An
infinite last bound, which the library drops, has no counterpart here. -/
def newHistogram (buckets : List ℚ) : Except String Histogram :=
  if strictlyIncreasing (if buckets = [] then DefBuckets else buckets) then
    .ok (Histogram.new (if buckets = [] then DefBuckets else buckets))
  else .error "histogram buckets must be in increasing order"

/-- The method `Observe` of a histogram: one more observation, counted in every
bucket whose upper bound it does not exceed, and added to the sum in `float64`
arithmetic. -/
def Histogram.Observe (h : Histogram) (v : ℚ) : Histogram :=
  { buckets := h.buckets.map fun b => if v ≤ b.1 then (b.1, b.2 + 1) else b
    sampleCount := h.sampleCount + 1
    sampleSum := f64add h.sampleSum v }

/-- The child of a vector for a label value, if it exists. -/
def HistogramVec.child (vec : HistogramVec) (label : String) : Option Histogram :=
  (vec.children.find? fun c => c.1 = label).map Prod.snd

/-- The children of a vector after the child for a label has observed `v`. -/
def observeChild (children : List (String × Histogram)) (label : String) (v : ℚ) :
    List (String × Histogram) :=
  children.map fun c => if c.1 = label then (c.1, c.2.Observe v) else c

/-- The call `vec.WithLabelValues(label).Observe(v)`: the child for the label
is made when it does not exist, which can panic, and observes `v`. -/
def HistogramVec.observe (vec : HistogramVec) (label : String) (v : ℚ) :
    Except String HistogramVec :=
  match vec.child label with
  | some _ => .ok { vec with children := observeChild vec.children label v }
  | none =>
    match newHistogram vec.buckets with
    | .error err => .error err
    | .ok h => .ok { vec with children := vec.children ++ [(label, h.Observe v)] }

/-- A collector registered in a registry.  A histogram vector is registered
by reference: the entry names the key of the shared push (pull) histogram map
it lives at.  A gauge vector belongs to the request that made it. -/
inductive Registered where
  | pushHistogram (key : String) (name : String)
  | pullHistogram (key : String) (name : String)
  | gauge (name : String) (samples : List (String × ℚ))
  deriving DecidableEq

/-- The fully qualified metric name of a registered collector. -/
def Registered.name : Registered → String
  | .pushHistogram _ name => name
  | .pullHistogram _ name => name
  | .gauge name _ => name

/-- A `prometheus.Registry`: the registered collectors, oldest first. -/
abbrev Registry := List Registered

/-- The registry `prometheus.NewRegistry` returns. -/
def NewRegistry : Registry := []

/-- The method `MustRegister`: it panics when a collector of the same name is
registered already. -/
def MustRegister (registry : Registry) (c : Registered) : Except String Registry :=
  if c.name ∈ registry.map Registered.name then
    .error "duplicate metrics collector registration attempted"
  else .ok (registry ++ [c])

/-- The call `gauge.WithLabelValues(label).Set(v)` on the registered gauge
vector of the given name. -/
def setGauge (registry : Registry) (name : String) (label : String) (v : ℚ) : Registry :=
  registry.map fun c =>
    match c with
    | .gauge n samples =>
      if n = name then .gauge n ((samples.filter fun x => x.1 ≠ label) ++ [(label, v)]) else c
    | other => other

/-- The key of a histogram map as a collector to register: a nil pointer
cannot be registered. -/
def histogramCollector (mk : String → String → Registered)
    (histograms : String → Option HistogramVec) (fileName : String) : Except String Registered :=
  match histograms fileName with
  | some vec => .ok (mk fileName vec.name)
  | none => .error "nil collector"

/-- The observation made on the entry of a histogram map (lines 253, 254); it
panics when the entry is nil or the child cannot be made. -/
def observeAt (histograms : String → Option HistogramVec) (fileName : String) (v : ℚ) :
    Except String (String → Option HistogramVec) :=
  match histograms fileName with
  | none => .error "nil collector"
  | some vec =>
    match vec.observe fileName v with
    | .error err => .error err
    | .ok vec1 => .ok (Function.update histograms fileName (some vec1))

/-- What a request works on: its own registry and the two histogram maps
that `main` made and every request shares. -/
structure CollectorState where
  registry : Registry
  pushHistograms : String → Option HistogramVec
  pullHistograms : String → Option HistogramVec

/-- The name of the push duration gauge of a file (line 222). -/
def pushDurationGaugeName (fileParams : TestFileParams) : String :=
  "artifactory_test_push_" ++ toString fileParams.Size ++ "mb_duration_seconds"

/-- The name of the pull duration gauge of a file (line 228). -/
def pullDurationGaugeName (fileParams : TestFileParams) : String :=
  "artifactory_test_pull_" ++ toString fileParams.Size ++ "mb_duration_seconds"

/-- The name of the push success gauge of a file (line 234). -/
def successPushGaugeName (fileParams : TestFileParams) : String :=
  "artifactory_test_push_" ++ toString fileParams.Size ++ "mb_success"

/-- The name of the pull success gauge of a file (line 240). -/
def successPullGaugeName (fileParams : TestFileParams) : String :=
  "artifactory_test_pull_" ++ toString fileParams.Size ++ "mb_success"

/-- The six registrations of one file (lines 246-251): the two shared
histogram vectors of the file, then the four gauge vectors just made. -/
def registerFile (st : CollectorState) (entry : String × TestFileParams) :
    Except String Registry := do
  let pushVec ← histogramCollector Registered.pushHistogram st.pushHistograms entry.1
  let r1 ← MustRegister st.registry pushVec
  let pullVec ← histogramCollector Registered.pullHistogram st.pullHistograms entry.1
  let r2 ← MustRegister r1 pullVec
  let r3 ← MustRegister r2 (.gauge (pushDurationGaugeName entry.2) [])
  let r4 ← MustRegister r3 (.gauge (pullDurationGaugeName entry.2) [])
  let r5 ← MustRegister r4 (.gauge (successPushGaugeName entry.2) [])
  MustRegister r5 (.gauge (successPullGaugeName entry.2) [])

/-- The body of the loop of `ArtifactoryCollector` (lines 222-258) for one
file: the six registrations, the observation on the shared push histogram
(line 253), the one on the shared pull histogram (line 254), and the four
gauge values (lines 255-258).  The second component is the panic, if any,
that ends the request; the state is the one the panic leaves. -/
def collectFile (results : Results) (st : CollectorState) (entry : String × TestFileParams) :
    CollectorState × Option String :=
  match registerFile st entry with
  | .error err => (st, some err)
  | .ok r6 =>
    match observeAt st.pushHistograms entry.1 (results.pushDuration entry.1) with
    | .error err => ({ st with registry := r6 }, some err)
    | .ok pushHistograms =>
      match observeAt st.pullHistograms entry.1 (results.pullDuration entry.1) with
      | .error err => ({ st with registry := r6, pushHistograms := pushHistograms }, some err)
      | .ok pullHistograms =>
        let fileName := entry.1
        let r7 := setGauge r6 (pushDurationGaugeName entry.2) fileName
          (results.pushDuration fileName)
        let r8 := setGauge r7 (pullDurationGaugeName entry.2) fileName
          (results.pullDuration fileName)
        let r9 := setGauge r8 (successPushGaugeName entry.2) fileName
          (results.pushSuccess fileName)
        let r10 := setGauge r9 (successPullGaugeName entry.2) fileName
          (results.pullSuccess fileName)
        ({ registry := r10, pushHistograms := pushHistograms
           pullHistograms := pullHistograms }, none)

/-- The function `ArtifactoryCollector`, over the files in the order of the
iteration.  It stops at the first panic (second component `some`): the
observations made before it stay. -/
def ArtifactoryCollector (results : Results) :
    CollectorState → List (String × TestFileParams) → CollectorState × Option String
  | st, [] => (st, none)
  | st, entry :: rest =>
    match collectFile results st entry with
    | (st1, some err) => (st1, some err)
    | (st1, none) => ArtifactoryCollector results st1 rest

/-- One metric family of an exposition. -/
inductive Family where
  | histogram (name : String) (children : List (String × Histogram))
  | gauge (name : String) (samples : List (String × ℚ))
  deriving DecidableEq

/-- The name of a metric family. -/
def Family.name : Family → String
  | .histogram name _ => name
  | .gauge name _ => name

/-- The samples of a metric family in the order of the exposition: sorted by
the value of the label `file_name`. -/
def sortSamples {α : Type} (samples : List (String × α)) : List (String × α) :=
  samples.insertionSort fun a b => a.1 ≤ b.1

/-- What a registered collector contributes when the registry is gathered: a
histogram vector its children as they are at that moment, a gauge vector its
samples. -/
def gatherOne (pushHistograms pullHistograms : String → Option HistogramVec) :
    Registered → Family
  | .pushHistogram key name =>
    .histogram name (sortSamples (((pushHistograms key).map fun v => v.children).getD []))
  | .pullHistogram key name =>
    .histogram name (sortSamples (((pullHistograms key).map fun v => v.children).getD []))
  | .gauge name samples => .gauge name (sortSamples samples)

/-- The method `Gather` of the registry, which the handler of `promhttp` calls
to write the exposition: the metric families of the registered collectors,
sorted by name. -/
def Gather (pushHistograms pullHistograms : String → Option HistogramVec)
    (registry : Registry) : List Family :=
  (registry.map (gatherOne pushHistograms pullHistograms)).insertionSort
    fun a b => a.name ≤ b.name

/-- What one request leaves behind and answers. -/
structure HandlerResult where
  pushHistograms : String → Option HistogramVec
  pullHistograms : String → Option HistogramVec
  /-- The exposition served, or the panic that ended the request. -/
  exposition : Except String (List Family)

/-- The function `artifactoryTestHandler`, for a request whose
`range testFiles` visits the files in the given order: a new registry, the
collector, and the exposition gathered from the registry. -/
def artifactoryTestHandler (testFiles : List (String × TestFileParams)) (results : Results)
    (pushHistograms pullHistograms : String → Option HistogramVec) : HandlerResult :=
  let registry := NewRegistry
  match ArtifactoryCollector results
      { registry := registry, pushHistograms := pushHistograms, pullHistograms := pullHistograms }
      testFiles with
  | (st, some err) =>
    { pushHistograms := st.pushHistograms, pullHistograms := st.pullHistograms
      exposition := .error err }
  | (st, none) =>
    { pushHistograms := st.pushHistograms, pullHistograms := st.pullHistograms
      exposition := .ok (Gather st.pushHistograms st.pullHistograms st.registry) }

/-- The request that follows a request: it finds the histogram maps as the
earlier request left them, and its own `range testFiles` visits the files in
an order of its own. -/
def nextRequest (order : List (String × TestFileParams)) (results : Results)
    (previous : HandlerResult) : HandlerResult :=
  artifactoryTestHandler order results previous.pushHistograms previous.pullHistograms

/-! ### Notions to state what two requests show -/

/-- The gauge families of an exposition. -/
def gaugeFamilies (families : List Family) : List Family :=
  families.filter fun f =>
    match f with
    | .gauge _ _ => true
    | .histogram _ _ => false

/-- The number of observations of the child for a label in an entry of a
histogram map; 0 when the entry or the child does not exist. -/
def sampleCountAt (histograms : String → Option HistogramVec) (key label : String) : Nat :=
  match histograms key with
  | some vec => ((vec.child label).map fun h => h.sampleCount).getD 0
  | none => 0

/-- The sum of the observations of the child for a label in an entry of a
histogram map; 0 when the entry or the child does not exist. -/
def sampleSumAt (histograms : String → Option HistogramVec) (key label : String) : ℚ :=
  match histograms key with
  | some vec => ((vec.child label).map fun h => h.sampleSum).getD 0
  | none => 0

/-- The name of the vector at a key of a histogram map. -/
def nameAt (histograms : String → Option HistogramVec) (key : String) : String :=
  ((histograms key).map HistogramVec.name).getD ""

/-- The six collectors a registry holds for a file whose pass of the loop is
complete. -/
def fileCollectors (results : Results) (pushHistograms pullHistograms : String → Option HistogramVec)
    (entry : String × TestFileParams) : List Registered :=
  [ .pushHistogram entry.1 (nameAt pushHistograms entry.1),
    .pullHistogram entry.1 (nameAt pullHistograms entry.1),
    .gauge (pushDurationGaugeName entry.2) [(entry.1, results.pushDuration entry.1)],
    .gauge (pullDurationGaugeName entry.2) [(entry.1, results.pullDuration entry.1)],
    .gauge (successPushGaugeName entry.2) [(entry.1, results.pushSuccess entry.1)],
    .gauge (successPullGaugeName entry.2) [(entry.1, results.pullSuccess entry.1)] ]

/-- The registration of several collectors, one `MustRegister` after the
other. -/
def registerAll : Registry → List Registered → Except String Registry
  | registry, [] => .ok registry
  | registry, c :: cs =>
    match MustRegister registry c with
    | .error err => .error err
    | .ok registry1 => registerAll registry1 cs

/-- The collectors can join the registry: their names are new to it and
differ from each other. -/
def Fresh (registry : Registry) (cs : List Registered) : Prop :=
  (∀ c ∈ cs, c.name ∉ registry.map Registered.name) ∧ (cs.map Registered.name).Nodup

/-- The collectors of all the files of a request that completes. -/
def allCollectors (results : Results) (pushHistograms pullHistograms : String → Option HistogramVec)
    (files : List (String × TestFileParams)) : List Registered :=
  files.flatMap (fileCollectors results pushHistograms pullHistograms)

/-! ## Loading the configuration (`config.go`) -/

/-- The method `Config.UnmarshalYAML` (lines 66-82).  `decoded` is what the
call `unmarshal((*plain)(s))` answers: an error, or the fields it filled in.
A document without the key `test_files` leaves the map nil; a document
with an empty mapping (`test_files: {}`) makes it an empty map that is not
nil. -/
def Config.UnmarshalYAML (decoded : Except String Config) : Except String Config :=
  match decoded with
  | .error err => .error err
  | .ok s =>
    match s.TestFiles with
    | none => .error "Parameters should be defined for at least one test file"
    | some _ =>
      if s.Artifactory.URL = "" then .error "Artifactory 'URL' must be defined"
      else if s.Artifactory.RepoPath = "" then .error "Artifactory 'RepoPath' must be defined"
      else .ok s

/-- The method `SafeConfig.LoadConfig` once the file is read: the document
is decoded through `Config.UnmarshalYAML`, whose error is wrapped. -/
def LoadConfig (decoded : Except String Config) : Except String Config :=
  match Config.UnmarshalYAML decoded with
  | .error err => .error ("Error parsing config file: " ++ err)
  | .ok c => .ok c

/-- The function `main` from the loading of the configuration (lines
347-349) to the start of the probe loop: `.error` is a fatal exit. -/
def loadAndStart (env : StartupEnv) (decoded : Except String Config) : Except String Startup :=
  match LoadConfig decoded with
  | .error err => .error ("Error loading config" ++ err)
  | .ok conf => startup env conf

/-! ## Concrete inputs -/

/-- A file system on which startup meets no error. -/
def okEnv : StartupEnv := { createFile := fun _ => none, hashFile := fun _ => .ok "" }

/-- A file of 1 MB that sets neither timeout. -/
def unsetFile : TestFileParams :=
  { Size := 1, HistogramBucketPush := [1, 5], HistogramBucketPull := [1, 5]
    TimeoutPush := 0, TimeoutPull := 0, VerifyChecksum := false }

/-- Thirty files `file0` ... `file29` that set neither timeout. -/
def thirtyFiles : List (String × TestFileParams) :=
  (List.range 30).map fun i => ("file" ++ toString i, unsetFile)

/-- A configuration with an interval of 60 seconds and the thirty files. -/
def conf30 : Config :=
  { ListenAddress := "", MetricsPath := "", Interval := 60000000000, Timeout := 0
    TestFilesPath := "", Debug := false, Artifactory := { URL := "u", RepoPath := "p" }
    TestFiles := some thirtyFiles }

/-- A push leg that succeeds. -/
def pushOk : PushEvents :=
  { openErr := none, requestErr := none, response := .ok 201, elapsed := 2 }

/-- A push leg that the remote answers with status 500. -/
def pushFailed : PushEvents :=
  { openErr := none, requestErr := none, response := .ok 500, elapsed := 2 }

/-- A pull leg that succeeds. -/
def pullOk : PullEvents :=
  { requestErr := none, response := .ok 200, createErr := none, copyErr := none
    hash := .ok "", elapsed := 3 }

/-- The first cycle of the file `a`, in which both legs succeed, and the push
leg of its second cycle, which fails, up to its first write. -/
def tornTrace : List LoopEvent :=
  [.pushEnds pushOk, .write, .pullEnds pullOk, .write, .nextCycle [("a", unsetFile)],
    .pushEnds pushFailed]

/-- The trace `tornTrace` and the second write of the failed push leg. -/
def mixedTrace : List LoopEvent :=
  tornTrace ++ [.write]

/-- The stored results of the file `a` after a cycle in which both legs
succeeded. -/
def resultsA : Results :=
  probeFile (fun _ => "") Results.empty ("a", unsetFile) pushOk pullOk

/-- The push histogram map `main` makes for the one file `a` with the
parameters `unsetFile`. -/
def pushHistogramsA : String → Option HistogramVec :=
  Function.update (fun _ => none) "a"
    (some (NewHistogramVec "artifactory_test_push_1mb_duration_seconds_histogram" [1, 5]))

/-- The pull histogram map `main` makes for the one file `a` with the
parameters `unsetFile`. -/
def pullHistogramsA : String → Option HistogramVec :=
  Function.update (fun _ => none) "a"
    (some (NewHistogramVec "artifactory_test_pull_1mb_duration_seconds_histogram" [1, 5]))

/-- The first request against `resultsA`. -/
def firstRequest : HandlerResult :=
  artifactoryTestHandler [("a", unsetFile)] resultsA pushHistogramsA pullHistogramsA

/-- The second request against `resultsA`, on the histograms the first one
left. -/
def secondRequest : HandlerResult :=
  nextRequest [("a", unsetFile)] resultsA firstRequest

/-- The exposition of the first request against `resultsA`. -/
def firstExposition : List Family :=
  [ .gauge "artifactory_test_pull_1mb_duration_seconds" [("a", 3)],
    .histogram "artifactory_test_pull_1mb_duration_seconds_histogram"
      [("a", { buckets := [(1, 0), (5, 1)], sampleCount := 1, sampleSum := 3 })],
    .gauge "artifactory_test_pull_1mb_success" [("a", 1)],
    .gauge "artifactory_test_push_1mb_duration_seconds" [("a", 2)],
    .histogram "artifactory_test_push_1mb_duration_seconds_histogram"
      [("a", { buckets := [(1, 0), (5, 1)], sampleCount := 1, sampleSum := 2 })],
    .gauge "artifactory_test_push_1mb_success" [("a", 1)] ]

/-- The exposition of the second request against `resultsA`. -/
def secondExposition : List Family :=
  [ .gauge "artifactory_test_pull_1mb_duration_seconds" [("a", 3)],
    .histogram "artifactory_test_pull_1mb_duration_seconds_histogram"
      [("a", { buckets := [(1, 0), (5, 2)], sampleCount := 2, sampleSum := 6 })],
    .gauge "artifactory_test_pull_1mb_success" [("a", 1)],
    .gauge "artifactory_test_push_1mb_duration_seconds" [("a", 2)],
    .histogram "artifactory_test_push_1mb_duration_seconds_histogram"
      [("a", { buckets := [(1, 0), (5, 2)], sampleCount := 2, sampleSum := 4 })],
    .gauge "artifactory_test_push_1mb_success" [("a", 1)] ]

/-- A file of 2 MB that sets neither timeout. -/
def twoMbFile : TestFileParams :=
  { Size := 2, HistogramBucketPush := [1, 5], HistogramBucketPull := [1, 5]
    TimeoutPush := 0, TimeoutPull := 0, VerifyChecksum := false }

/-- The stored results of the files `a` and `b` after a cycle in which all
four legs succeeded. -/
def resultsAB : Results :=
  probeFile (fun _ => "") resultsA ("b", twoMbFile) pushOk pullOk

/-- The push histogram map `main` makes for the files `a` and `b`. -/
def pushHistogramsAB : String → Option HistogramVec :=
  Function.update pushHistogramsA "b"
    (some (NewHistogramVec "artifactory_test_push_2mb_duration_seconds_histogram" [1, 5]))

/-- The pull histogram map `main` makes for the files `a` and `b`. -/
def pullHistogramsAB : String → Option HistogramVec :=
  Function.update pullHistogramsA "b"
    (some (NewHistogramVec "artifactory_test_pull_2mb_duration_seconds_histogram" [1, 5]))

/-- The exposition of a first request against `resultsAB`. -/
def firstExpositionAB : List Family :=
  [ .gauge "artifactory_test_pull_1mb_duration_seconds" [("a", 3)],
    .histogram "artifactory_test_pull_1mb_duration_seconds_histogram"
      [("a", { buckets := [(1, 0), (5, 1)], sampleCount := 1, sampleSum := 3 })],
    .gauge "artifactory_test_pull_1mb_success" [("a", 1)],
    .gauge "artifactory_test_pull_2mb_duration_seconds" [("b", 3)],
    .histogram "artifactory_test_pull_2mb_duration_seconds_histogram"
      [("b", { buckets := [(1, 0), (5, 1)], sampleCount := 1, sampleSum := 3 })],
    .gauge "artifactory_test_pull_2mb_success" [("b", 1)],
    .gauge "artifactory_test_push_1mb_duration_seconds" [("a", 2)],
    .histogram "artifactory_test_push_1mb_duration_seconds_histogram"
      [("a", { buckets := [(1, 0), (5, 1)], sampleCount := 1, sampleSum := 2 })],
    .gauge "artifactory_test_push_1mb_success" [("a", 1)],
    .gauge "artifactory_test_push_2mb_duration_seconds" [("b", 2)],
    .histogram "artifactory_test_push_2mb_duration_seconds_histogram"
      [("b", { buckets := [(1, 0), (5, 1)], sampleCount := 1, sampleSum := 2 })],
    .gauge "artifactory_test_push_2mb_success" [("b", 1)] ]

/-- The configuration decoded from a document that gives the Artifactory URL
and path and an empty mapping `test_files: {}`. -/
def confEmpty : Config :=
  { ListenAddress := "", MetricsPath := "", Interval := 0, Timeout := 0, TestFilesPath := ""
    Debug := false, Artifactory := { URL := "u", RepoPath := "p" }
    TestFiles := some [] }

/-! # Theorems -/

/-! ## `float64` arithmetic -/

theorem roundHalfEven_near (x : ℚ) : |(roundHalfEven x : ℚ) - x| ≤ 1 / 2 := by
  have h1 := Int.floor_le x
  have h2 := Int.lt_floor_add_one x
  unfold roundHalfEven
  rw [abs_le]
  split_ifs with ha hb hc
  · constructor <;> linarith
  · push_cast
    constructor <;> linarith
  · push_neg at ha hb
    constructor <;> linarith
  · push_neg at ha hb
    push_cast
    constructor <;> linarith

theorem roundHalfEven_eq_of_near (x : ℚ) (m : Int) (h : |x - m| < 1 / 2) :
    roundHalfEven x = m := by
  rw [abs_lt] at h
  have hfl : ⌊x⌋ = m ∨ ⌊x⌋ = m - 1 := by
    have h1 : m - 1 ≤ ⌊x⌋ := by
      rw [Int.le_floor]
      push_cast
      linarith
    have h2 : ⌊x⌋ < m + 1 := by
      rw [Int.floor_lt]
      push_cast
      linarith
    omega
  unfold roundHalfEven
  rcases hfl with hf | hf
  · have : x - ((⌊x⌋ : Int) : ℚ) < 1 / 2 := by
      rw [hf]
      linarith
    rw [if_pos this, hf]
  · have hx : (1 : ℚ) / 2 < x - ((⌊x⌋ : Int) : ℚ) := by
      rw [hf]
      push_cast
      linarith
    rw [if_neg (not_lt.mpr hx.le), if_pos hx, hf]
    ring

theorem round64_zero : round64 0 = 0 := by
  simp [round64]

theorem round64_eq_of_near (q : ℚ) (e m : Int) (he : -1022 ≤ e)
    (hlo : (2 : ℚ) ^ e ≤ |q|) (hhi : |q| < (2 : ℚ) ^ (e + 1))
    (hnear : |q / (2 : ℚ) ^ (e - 52) - m| < 1 / 2) :
    round64 q = (m : ℚ) * (2 : ℚ) ^ (e - 52) := by
  have hpos : 0 < |q| := lt_of_lt_of_le (by positivity) hlo
  have hq : q ≠ 0 := abs_pos.mp hpos
  have hlog : Int.log 2 |q| = e := by
    apply le_antisymm
    · have := (@Int.lt_zpow_iff_log_lt ℚ _ _ 2 (by norm_num) (e + 1) |q| hpos).mp
        (by exact_mod_cast hhi)
      omega
    · exact (@Int.zpow_le_iff_le_log ℚ _ _ 2 (by norm_num) e |q| hpos).mp
        (by exact_mod_cast hlo)
  unfold round64
  rw [if_neg hq, hlog, max_eq_left he, roundHalfEven_eq_of_near _ m hnear]

theorem log_bounds {x : ℚ} (hx : 0 < x) :
    (2 : ℚ) ^ (Int.log 2 x) ≤ x ∧ x < (2 : ℚ) ^ (Int.log 2 x + 1) := by
  constructor
  · exact_mod_cast @Int.zpow_log_le_self ℚ _ _ 2 x (by norm_num) hx
  · exact_mod_cast @Int.lt_zpow_succ_log_self ℚ _ _ 2 (by norm_num) x

theorem round64_abs_error {x : ℚ} (hx : (2 : ℚ) ^ (-1022 : Int) ≤ x) :
    |round64 x - x| ≤ x / 2 ^ 53 := by
  have hpos : 0 < x := lt_of_lt_of_le (by positivity) hx
  have habs : |x| = x := abs_of_pos hpos
  obtain ⟨hlo, -⟩ := log_bounds hpos
  have hlog : -1022 ≤ Int.log 2 x :=
    (@Int.zpow_le_iff_le_log ℚ _ _ 2 (by norm_num) (-1022) x hpos).mp (by exact_mod_cast hx)
  unfold round64
  rw [if_neg hpos.ne', habs, max_eq_left hlog]
  set u : ℚ := (2 : ℚ) ^ (Int.log 2 x - 52) with hu
  have hupos : 0 < u := by positivity
  have hnear := roundHalfEven_near (x / u)
  have hulp : u = (2 : ℚ) ^ (Int.log 2 x) / 2 ^ 52 := by
    rw [hu, zpow_sub₀ (by norm_num : (2 : ℚ) ≠ 0)]
    norm_num
  have hle : u / 2 ≤ x / 2 ^ 53 := by
    rw [hulp]
    have : (2 : ℚ) ^ (Int.log 2 x) / 2 ^ 52 / 2 = (2 : ℚ) ^ (Int.log 2 x) / 2 ^ 53 := by
      norm_num
      ring
    rw [this]
    exact div_le_div_of_nonneg_right hlo (by positivity)
  have heq : (roundHalfEven (x / u) : ℚ) * u - x = ((roundHalfEven (x / u) : ℚ) - x / u) * u := by
    field_simp
  rw [heq, abs_mul, abs_of_pos hupos]
  calc |(roundHalfEven (x / u) : ℚ) - x / u| * u ≤ 1 / 2 * u :=
        mul_le_mul_of_nonneg_right hnear hupos.le
    _ = u / 2 := by ring
    _ ≤ x / 2 ^ 53 := hle

theorem round64_bounds {x : ℚ} (hx : x = 0 ∨ (2 : ℚ) ^ (-1022 : Int) ≤ x) :
    x * (1 - 1 / 2 ^ 53) ≤ round64 x ∧ round64 x ≤ x * (1 + 1 / 2 ^ 53) := by
  rcases hx with h0 | hx
  · subst h0
    simp [round64_zero]
  · have h := round64_abs_error hx
    rw [abs_le] at h
    constructor <;> linarith [h.1, h.2]

theorem round64_intCast (n : Int) (hn : |n| < 2 ^ 53) : round64 (n : ℚ) = n := by
  by_cases h0 : n = 0
  · subst h0
    simp [round64_zero]
  · have hpos : (0 : ℚ) < |(n : ℚ)| := abs_pos.mpr (by exact_mod_cast h0)
    obtain ⟨hlo, hhi⟩ := log_bounds hpos
    have hone : (1 : ℚ) ≤ |(n : ℚ)| := by
      have : (1 : Int) ≤ |n| := Int.one_le_abs h0
      exact_mod_cast this
    have hlog0 : 0 ≤ Int.log 2 |(n : ℚ)| :=
      (@Int.zpow_le_iff_le_log ℚ _ _ 2 (by norm_num) 0 _ hpos).mp (by simpa using hone)
    have hlt53 : Int.log 2 |(n : ℚ)| < 53 := by
      apply (@Int.lt_zpow_iff_log_lt ℚ _ _ 2 (by norm_num) 53 _ hpos).mp
      have : |(n : ℚ)| < 2 ^ 53 := by exact_mod_cast hn
      exact_mod_cast this
    obtain ⟨k, hk⟩ : ∃ k : Nat, (k : Int) = 52 - Int.log 2 |(n : ℚ)| :=
      ⟨(52 - Int.log 2 |(n : ℚ)|).toNat, Int.toNat_of_nonneg (by omega)⟩
    have hpow : (2 : ℚ) ^ (Int.log 2 |(n : ℚ)| - 52) = 1 / 2 ^ k := by
      have : Int.log 2 |(n : ℚ)| - 52 = -(k : Int) := by omega
      rw [this, zpow_neg, zpow_natCast]
      simp
    have hres := round64_eq_of_near (n : ℚ) (Int.log 2 |(n : ℚ)|) (n * 2 ^ k) (by omega) hlo hhi
      (by
        rw [hpow]
        push_cast
        have : (n : ℚ) / (1 / 2 ^ k) - (n : ℚ) * 2 ^ k = 0 := by
          field_simp
        rw [this]
        norm_num)
    rw [hres, hpow]
    push_cast
    field_simp

theorem round64_of_eq_int (q : ℚ) (n : Int) (hn : |n| < 2 ^ 53) (hq : q = (n : ℚ)) :
    round64 q = (n : ℚ) := by
  rw [hq]
  exact round64_intCast n hn

theorem seconds_whole (k : Int) (hk : |k| < 2 ^ 53) : Duration.Seconds (k * Second) = k := by
  have hdiv : Int.tdiv (k * Second) Second = k := by
    unfold Second
    exact Int.mul_tdiv_cancel k (by norm_num)
  have hmod : Int.tmod (k * Second) Second = 0 := by
    unfold Second
    exact Int.mul_tmod_left k _
  unfold Duration.Seconds f64add f64div
  rw [hdiv, hmod, round64_intCast k hk]
  simp [round64_zero, round64_intCast k hk]

theorem seconds_zero : Duration.Seconds 0 = 0 := by
  simpa using seconds_whole 0 (by norm_num)

theorem seconds_sixty : Duration.Seconds 60000000000 = 60 := by
  have h := seconds_whole 60 (by norm_num)
  norm_num [Second] at h
  exact h

theorem budget_sixty_thirty : maxFileTimeoutFloat64 60 30 = 0 := by
  have h1 : round64 ((60 : ℚ) / 2) = 30 := by
    simpa using round64_of_eq_int (60 / 2) 30 (by norm_num) (by norm_num)
  have h2 : round64 ((30 : Nat) : ℚ) = 30 := by
    simpa using round64_of_eq_int ((30 : Nat) : ℚ) 30 (by norm_num) (by norm_num)
  have h3 : round64 ((30 : ℚ) / 30) = 1 := by
    simpa using round64_of_eq_int (30 / 30) 1 (by norm_num) (by norm_num)
  have h4 : round64 ((1 : ℚ) - 1) = 0 := by
    simpa using round64_of_eq_int (1 - 1) 0 (by norm_num) (by norm_num)
  unfold maxFileTimeoutFloat64 f64sub f64div
  rw [h1, h2, h3, h4]

theorem wrapInt64_of_range (x : Int) (h0 : -2 ^ 63 ≤ x) (h1 : x < 2 ^ 63) : wrapInt64 x = x := by
  unfold wrapInt64
  rw [Int.emod_eq_of_lt (by linarith) (by linarith)]
  ring

theorem seconds_parts (d : Duration) (h0 : 0 ≤ d) :
    0 ≤ Int.tdiv d Second ∧ 0 ≤ Int.tmod d Second ∧ Int.tmod d Second < 1000000000 ∧
    d = Int.tdiv d Second * 1000000000 + Int.tmod d Second := by
  have hS : (0 : Int) ≤ Second := by unfold Second; norm_num
  rw [Int.tdiv_eq_ediv h0 hS, Int.tmod_eq_emod h0 hS]
  unfold Second
  refine ⟨Int.ediv_nonneg h0 (by norm_num), Int.emod_nonneg _ (by norm_num),
    Int.emod_lt_of_pos _ (by norm_num), ?_⟩
  have := Int.ediv_add_emod d 1000000000
  linarith

theorem tiny_le : (2 : ℚ) ^ (-1022 : Int) ≤ 1 / 4000000000 := by
  have h : (2 : ℚ) ^ (-1022 : Int) = 1 / 2 ^ 1022 := by
    rw [show (-1022 : Int) = -((1022 : Nat) : Int) from rfl, zpow_neg, zpow_natCast,
      inv_eq_one_div]
  rw [h]
  apply one_div_le_one_div_of_le (by norm_num)
  norm_num

theorem round64_half {x : ℚ} (hx : (1 : ℚ) / 4000000000 ≤ x) :
    x / 2 ≤ round64 x ∧ x * (1 - 1 / 2 ^ 53) ≤ round64 x ∧ round64 x ≤ x * (1 + 1 / 2 ^ 53) := by
  obtain ⟨h1, h2⟩ := round64_bounds (Or.inr (le_trans tiny_le hx))
  have hpos : 0 ≤ x := le_trans (by norm_num) hx
  have : (0 : ℚ) ≤ x * (1 / 2 - 1 / 2 ^ 53) := mul_nonneg hpos (by norm_num)
  exact ⟨by linarith, h1, h2⟩

theorem interval_product_bounds (d : Duration) (h0 : 0 ≤ d) (h1 : d < 2 ^ 62) :
    (d : ℚ) * (1 - 1 / 2 ^ 51) ≤ f64mul d.Seconds 1000000000 ∧
    f64mul d.Seconds 1000000000 ≤ (d : ℚ) * (1 + 1 / 2 ^ 51) := by
  obtain ⟨hsec0, hn0, hn1, hd⟩ := seconds_parts d h0
  have hsec53 : |Int.tdiv d Second| < 2 ^ 53 := by
    rw [abs_of_nonneg hsec0]
    have : Int.tdiv d Second * 1000000000 < 2 ^ 62 := by linarith
    norm_num at this ⊢
    linarith
  have hn53 : |Int.tmod d Second| < 2 ^ 53 := by
    rw [abs_of_nonneg hn0]
    norm_num
    linarith
  unfold Duration.Seconds f64add f64div f64mul
  rw [round64_intCast _ hsec53, round64_intCast _ hn53]
  set sec : Int := Int.tdiv d Second with hsecdef
  set nsec : Int := Int.tmod d Second with hnsecdef
  have hdq : (d : ℚ) = (sec : ℚ) * 1000000000 + (nsec : ℚ) := by exact_mod_cast hd
  have hsecq : (0 : ℚ) ≤ (sec : ℚ) := by exact_mod_cast hsec0
  have hnq : (0 : ℚ) ≤ (nsec : ℚ) := by exact_mod_cast hn0
  by_cases hzero : d = 0
  · have hs0 : sec = 0 := by
      rw [hsecdef, hzero]
      rfl
    have hn00 : nsec = 0 := by
      rw [hnsecdef, hzero]
      rfl
    rw [hs0, hn00, hzero]
    simp [round64_zero]
  · have hdpos : (1 : ℚ) ≤ (d : ℚ) := by
      have : (0 : Int) < d := lt_of_le_of_ne h0 (Ne.symm hzero)
      have h2 : (1 : Int) ≤ d := this
      exact_mod_cast h2
    set f : ℚ := (nsec : ℚ) / 1000000000 with hfd
    have hf0 : 0 ≤ f := by positivity
    have hfmul : f * 1000000000 = (nsec : ℚ) := by
      rw [hfd]
      field_simp
    -- the quotient of the nanoseconds
    have hb : f * (1 - 1 / 2 ^ 53) ≤ round64 f ∧ round64 f ≤ f * (1 + 1 / 2 ^ 53) ∧
        f / 2 ≤ round64 f := by
      by_cases hnz : nsec = 0
      · have hfz : f = 0 := by
          rw [hfd, hnz]
          simp
        rw [hfz, round64_zero]
        norm_num
      · have hpos : (0 : Int) < nsec := lt_of_le_of_ne hn0 (Ne.symm hnz)
        have hone : (1 : Int) ≤ nsec := hpos
        have hq : (1 : ℚ) ≤ (nsec : ℚ) := by exact_mod_cast hone
        have hfl : (1 : ℚ) / 4000000000 ≤ f := by
          rw [hfd]
          have := div_le_div_of_nonneg_right hq (by norm_num : (0 : ℚ) ≤ 1000000000)
          linarith
        obtain ⟨a1, a2, a3⟩ := round64_half hfl
        exact ⟨a2, a3, a1⟩
    obtain ⟨hb1, hb2, hb3⟩ := hb
    set b : ℚ := round64 f with hbdef
    have hdx : (d : ℚ) = ((sec : ℚ) + f) * 1000000000 := by
      rw [hdq]
      linarith
    have hxpos : (1 : ℚ) / 1000000000 ≤ (sec : ℚ) + f := by
      have h2 : (1 : ℚ) ≤ ((sec : ℚ) + f) * 1000000000 := by
        rw [← hdx]
        exact hdpos
      linarith
    have hsum : (1 : ℚ) / 4000000000 ≤ (sec : ℚ) + b := by linarith
    obtain ⟨hs0, hs1, hs2⟩ := round64_half hsum
    set s : ℚ := round64 ((sec : ℚ) + b) with hsdef
    have hprod : (1 : ℚ) / 4000000000 ≤ s * 1000000000 := by linarith
    obtain ⟨-, hp1, hp2⟩ := round64_half hprod
    set p : ℚ := round64 (s * 1000000000) with hpdef
    rw [hdx]
    constructor
    · linarith
    · linarith

theorem maxFileTimeout_pos_iff (testsInterval : ℚ) (fileCount : Nat) (hn : 1 ≤ fileCount) :
    0 < maxFileTimeout testsInterval fileCount ↔ 2 * (fileCount : ℚ) < testsInterval := by
  have hpos : (0 : ℚ) < (fileCount : ℚ) := by exact_mod_cast hn
  unfold maxFileTimeout
  rw [sub_pos, lt_div_iff₀ hpos, lt_div_iff₀ (by norm_num : (0 : ℚ) < 2)]
  constructor <;> intro h <;> linarith

/-- C1 (as stated, refuted): with an interval of 60 seconds and 30 files the
budget `maxFileTimeout` is exactly 0, so it is not strictly positive for every
interval of at least 60 seconds and every file count of at least 1. -/
theorem C1_budget_not_always_positive :
    ¬ ∀ (testsInterval : ℚ) (fileCount : Nat), 60 ≤ testsInterval → 1 ≤ fileCount →
      0 < maxFileTimeout testsInterval fileCount := by
  intro h
  have h30 := h 60 30 (le_refl _) (by decide)
  norm_num [maxFileTimeout] at h30

/-- C1 (amended): for an interval of at least 60 seconds and at least one
file, the budget `maxFileTimeout` is strictly positive exactly when the
interval exceeds twice the file count; in particular it is strictly positive
for every file count from 1 to 29. -/
theorem C1_budget_positive_iff (testsInterval : ℚ) (fileCount : Nat)
    (hInterval : 60 ≤ testsInterval) (hCount : 1 ≤ fileCount) :
    (0 < maxFileTimeout testsInterval fileCount ↔ 2 * (fileCount : ℚ) < testsInterval) ∧
    (fileCount ≤ 29 → 0 < maxFileTimeout testsInterval fileCount) := by
  refine ⟨maxFileTimeout_pos_iff testsInterval fileCount hCount, fun h29 => ?_⟩
  rw [maxFileTimeout_pos_iff testsInterval fileCount hCount]
  have : (fileCount : ℚ) ≤ 29 := by exact_mod_cast h29
  linarith

theorem C1_budget_positive_iff_witness :
    (60 : ℚ) ≤ 60 ∧ 1 ≤ 29 ∧
    ((0 < maxFileTimeout 60 29 ↔ 2 * ((29 : Nat) : ℚ) < 60) ∧
      (29 ≤ 29 → 0 < maxFileTimeout 60 29)) :=
  ⟨le_refl _, by decide, C1_budget_positive_iff 60 29 (le_refl _) (by decide)⟩

theorem startupFile_ok {env : StartupEnv} {dir : String} {M : ℚ} {maps maps1 : StartupMaps}
    {entry : String × TestFileParams} (h : startupFile env dir M maps entry = .ok maps1) :
    resolveTimeout "push" entry.2.TimeoutPush M = .ok (maps1.filesTimeoutPush entry.1) ∧
    resolveTimeout "pull" entry.2.TimeoutPull M = .ok (maps1.filesTimeoutPull entry.1) ∧
    ∀ g, g ≠ entry.1 → maps1.filesTimeoutPush g = maps.filesTimeoutPush g ∧
      maps1.filesTimeoutPull g = maps.filesTimeoutPull g := by
  unfold startupFile at h
  simp only at h
  split at h
  · exact absurd h (by simp)
  · split at h
    · exact absurd h (by simp)
    · rename_i tp hp
      split at h
      · exact absurd h (by simp)
      · rename_i tl hl
        split at h
        · split at h
          · injection h with h
            subst h
            refine ⟨by simp [hp], by simp [hl], fun g hg => ?_⟩
            simp [Function.update_noteq hg]
          · exact absurd h (by simp)
        · injection h with h
          subst h
          refine ⟨by simp [hp], by simp [hl], fun g hg => ?_⟩
          simp [Function.update_noteq hg]

theorem startupFiles_frame {env : StartupEnv} {dir : String} {M : ℚ} :
    ∀ (files : List (String × TestFileParams)) (maps maps1 : StartupMaps),
      startupFiles env dir M maps files = .ok maps1 →
      ∀ g, g ∉ files.map Prod.fst →
        maps1.filesTimeoutPush g = maps.filesTimeoutPush g ∧
        maps1.filesTimeoutPull g = maps.filesTimeoutPull g
  | [], maps, maps1, h, g, _ => by
    simp only [startupFiles] at h
    injection h with h
    subst h
    exact ⟨rfl, rfl⟩
  | entry :: rest, maps, maps1, h, g, hg => by
    simp only [startupFiles] at h
    split at h
    · exact absurd h (by simp)
    · rename_i mid hmid
      simp only [List.map_cons, List.mem_cons, not_or] at hg
      have h1 := (startupFile_ok hmid).2.2 g hg.1
      have h2 := startupFiles_frame rest mid maps1 h g hg.2
      exact ⟨h2.1.trans h1.1, h2.2.trans h1.2⟩

theorem startupFiles_resolved {env : StartupEnv} {dir : String} {M : ℚ} :
    ∀ (files : List (String × TestFileParams)) (maps maps1 : StartupMaps),
      startupFiles env dir M maps files = .ok maps1 →
      (files.map Prod.fst).Nodup →
      ∀ entry ∈ files,
        resolveTimeout "push" entry.2.TimeoutPush M = .ok (maps1.filesTimeoutPush entry.1) ∧
        resolveTimeout "pull" entry.2.TimeoutPull M = .ok (maps1.filesTimeoutPull entry.1)
  | [], _, _, _, _, entry, hmem => by simp at hmem
  | first :: rest, maps, maps1, h, hnodup, entry, hmem => by
    simp only [startupFiles] at h
    split at h
    · exact absurd h (by simp)
    · rename_i mid hmid
      simp only [List.map_cons, List.nodup_cons] at hnodup
      rcases List.mem_cons.mp hmem with heq | hrest
      · subst heq
        have hf := startupFiles_frame rest mid maps1 h entry.1 hnodup.1
        have h1 := startupFile_ok hmid
        rw [hf.1, hf.2]
        exact ⟨h1.1, h1.2.1⟩
      · exact startupFiles_resolved rest mid maps1 h hnodup.2 entry hrest

theorem startup_ok {env : StartupEnv} {conf : Config} {st : Startup}
    (h : startup env conf = .ok st) :
    resolveTestsInterval conf.Interval = .ok st.testsInterval ∧
    st.maxTimeout = maxFileTimeoutFloat64 st.testsInterval (mapEntries conf.TestFiles).length ∧
    startupFiles env st.testFilesDir st.maxTimeout StartupMaps.empty (mapEntries conf.TestFiles)
      = .ok st.maps := by
  unfold startup at h
  split at h
  · exact absurd h (by simp)
  · rename_i ti hti
    split at h
    · exact absurd h (by simp)
    · simp only at h
      split at h
      · exact absurd h (by simp)
      · rename_i maps hmaps
        injection h with h
        subst h
        exact ⟨hti, rfl, hmaps⟩

theorem resolveTimeout_unset {leg : String} {t : Duration} {M : ℚ} (ht : t.Seconds = 0) :
    resolveTimeout leg t M = .ok M := by
  unfold resolveTimeout
  rw [if_neg (not_not.mpr ht)]

theorem startup_resolved {env : StartupEnv} {conf : Config} {st : Startup}
    {testsInterval : ℚ} (entry : String × TestFileParams)
    (hok : startup env conf = .ok st)
    (hinterval : resolveTestsInterval conf.Interval = .ok testsInterval)
    (hnodup : ((mapEntries conf.TestFiles).map Prod.fst).Nodup)
    (hmem : entry ∈ mapEntries conf.TestFiles) :
    resolveTimeout "push" entry.2.TimeoutPush
        (maxFileTimeoutFloat64 testsInterval (mapEntries conf.TestFiles).length)
      = .ok (st.maps.filesTimeoutPush entry.1) ∧
    resolveTimeout "pull" entry.2.TimeoutPull
        (maxFileTimeoutFloat64 testsInterval (mapEntries conf.TestFiles).length)
      = .ok (st.maps.filesTimeoutPull entry.1) := by
  obtain ⟨hti, hmax, hfiles⟩ := startup_ok hok
  have heq : testsInterval = st.testsInterval := by
    rw [hinterval] at hti
    injection hti
  rw [heq, ← hmax]
  exact startupFiles_resolved _ _ _ hfiles hnodup entry hmem

theorem exists_startup30 : ∃ st, startup okEnv conf30 = .ok st := by
  norm_num [startup, conf30, thirtyFiles, List.range, List.range.loop, okEnv, unsetFile,
    startupFiles, startupFile, resolveTimeout, seconds_zero, seconds_sixty, resolveTestsInterval,
    resolveHandlerTimeout, mapEntries, createTestFiles]

theorem thirtyFiles_nodup : (thirtyFiles.map Prod.fst).Nodup := by
  decide

/-- C2 (the code at the failing input): with an interval of 60 seconds and 30
files that leave both timeouts unset, startup is not fatal, the budget is 0,
and every file's resolved push timeout and pull timeout is 0. -/
theorem C2_zero_budget_accepted :
    ∃ st, startup okEnv conf30 = .ok st ∧ st.maxTimeout = 0 ∧
      ∀ entry ∈ thirtyFiles,
        st.maps.filesTimeoutPush entry.1 = 0 ∧ st.maps.filesTimeoutPull entry.1 = 0 := by
  obtain ⟨st, hok⟩ := exists_startup30
  have hinterval : resolveTestsInterval conf30.Interval = .ok 60 := by
    norm_num [resolveTestsInterval, conf30, seconds_sixty]
  have hbudget : maxFileTimeoutFloat64 60 (mapEntries conf30.TestFiles).length = 0 := by
    have hlen : (mapEntries conf30.TestFiles).length = 30 := by
      simp [conf30, mapEntries, thirtyFiles]
    rw [hlen]
    exact budget_sixty_thirty
  obtain ⟨hti, hmax, -⟩ := startup_ok hok
  have hst : st.testsInterval = 60 := by
    rw [hinterval] at hti
    injection hti with h
    exact h.symm
  refine ⟨st, hok, by rw [hmax, hst, hbudget], fun entry hmem => ?_⟩
  have hunset : entry.2 = unsetFile := by
    simp only [thirtyFiles, List.mem_map] at hmem
    obtain ⟨i, -, hi⟩ := hmem
    rw [← hi]
  have hres := startup_resolved entry hok hinterval
    (by simpa [conf30, mapEntries] using thirtyFiles_nodup)
    (by simpa [conf30, mapEntries] using hmem)
  rw [hbudget, hunset] at hres
  have hp : resolveTimeout "push" unsetFile.TimeoutPush 0 = .ok 0 :=
    resolveTimeout_unset (by simp [unsetFile, seconds_zero])
  have hl : resolveTimeout "pull" unsetFile.TimeoutPull 0 = .ok 0 :=
    resolveTimeout_unset (by simp [unsetFile, seconds_zero])
  rw [hp] at hres
  rw [hl] at hres
  obtain ⟨h1, h2⟩ := hres
  injection h1 with h1
  injection h2 with h2
  exact ⟨h1.symm, h2.symm⟩

theorem pushLeg_cases (ev : PushEvents) :
    (ev.openErr = none ∧ ev.requestErr = none ∧ ev.response = .ok 201 ∧
      pushLeg ev = { duration := ev.elapsed, success := 1 }) ∨
    (¬ (ev.openErr = none ∧ ev.requestErr = none ∧ ev.response = .ok 201) ∧
      pushLeg ev = { duration := 0, success := 0 }) := by
  obtain ⟨openErr, requestErr, response, elapsed⟩ := ev
  cases openErr with
  | some e => right; simp [pushLeg]
  | none =>
    cases requestErr with
    | some e => right; simp [pushLeg]
    | none =>
      cases response with
      | error e => right; simp [pushLeg]
      | ok statusCode =>
        by_cases hs : statusCode = 201
        · left; simp [pushLeg, hs]
        · right
          simp [pushLeg, hs]

theorem pullLeg_cases (verifyChecksum : Bool) (checksum : String) (ev : PullEvents) :
    (ev.requestErr = none ∧ ev.response = .ok 200 ∧ ev.createErr = none ∧ ev.copyErr = none ∧
        (verifyChecksum = false ∨ ev.hash = .ok checksum) ∧
      pullLeg verifyChecksum checksum ev = { duration := ev.elapsed, success := 1 }) ∨
    (¬ (ev.requestErr = none ∧ ev.response = .ok 200 ∧ ev.createErr = none ∧
          ev.copyErr = none ∧ (verifyChecksum = false ∨ ev.hash = .ok checksum)) ∧
      pullLeg verifyChecksum checksum ev = { duration := 0, success := 0 }) := by
  obtain ⟨requestErr, response, createErr, copyErr, hash, elapsed⟩ := ev
  cases requestErr with
  | some e => right; simp [pullLeg]
  | none =>
    cases response with
    | error e => right; simp [pullLeg]
    | ok statusCode =>
      by_cases hs : statusCode = 200
      · subst hs
        cases createErr with
        | some e => right; simp [pullLeg]
        | none =>
          cases copyErr with
          | some e => right; simp [pullLeg]
          | none =>
            cases verifyChecksum with
            | false => left; simp [pullLeg]
            | true =>
              cases hash with
              | error e => right; simp [pullLeg]
              | ok h =>
                by_cases hh : h = checksum
                · left; simp [pullLeg, hh]
                · right; simp [pullLeg, hh]
      · right; simp [pullLeg, hs]

theorem probeFile_push (filesChecksum : String → String) (results : Results)
    (entry : String × TestFileParams) (push : PushEvents) (pull : PullEvents) :
    (probeFile filesChecksum results entry push pull).pushDuration entry.1
        = (pushLeg push).duration ∧
    (probeFile filesChecksum results entry push pull).pushSuccess entry.1
        = (pushLeg push).success := by
  simp [probeFile, commitPush, commitPull]

theorem probeFile_pull (filesChecksum : String → String) (results : Results)
    (entry : String × TestFileParams) (push : PushEvents) (pull : PullEvents) :
    (probeFile filesChecksum results entry push pull).pullDuration
        = Function.update results.pullDuration entry.1
            (pullLeg entry.2.VerifyChecksum (filesChecksum entry.1) pull).duration ∧
    (probeFile filesChecksum results entry push pull).pullSuccess
        = Function.update results.pullSuccess entry.1
            (pullLeg entry.2.VerifyChecksum (filesChecksum entry.1) pull).success := by
  simp [probeFile, commitPush, commitPull]

/-- C5: after the probe of a file, the recorded push success is 1 if and only
if the file opened, the request was built, the transfer completed and the
status is exactly 201, in which case the recorded push duration is the time
the leg took; in every other case the recorded push duration and push success
are both 0. -/
theorem C5_push_success_iff (filesChecksum : String → String) (results : Results)
    (entry : String × TestFileParams) (push : PushEvents) (pull : PullEvents) :
    ((probeFile filesChecksum results entry push pull).pushSuccess entry.1 = 1 ↔
      (push.openErr = none ∧ push.requestErr = none ∧ push.response = .ok 201)) ∧
    ((push.openErr = none ∧ push.requestErr = none ∧ push.response = .ok 201 ∧
        (probeFile filesChecksum results entry push pull).pushDuration entry.1 = push.elapsed) ∨
      ((probeFile filesChecksum results entry push pull).pushDuration entry.1 = 0 ∧
        (probeFile filesChecksum results entry push pull).pushSuccess entry.1 = 0)) := by
  obtain ⟨hd, hs⟩ := probeFile_push filesChecksum results entry push pull
  rw [hd, hs]
  rcases pushLeg_cases push with ⟨h1, h2, h3, hout⟩ | ⟨hnot, hout⟩
  · rw [hout]
    exact ⟨⟨fun _ => ⟨h1, h2, h3⟩, fun _ => rfl⟩, Or.inl ⟨h1, h2, h3, rfl⟩⟩
  · rw [hout]
    refine ⟨⟨fun h => ?_, fun h => absurd h hnot⟩, Or.inr ⟨rfl, rfl⟩⟩
    norm_num at h

/-- C6: after the probe of a file, the recorded pull success is 1 if and only
if the request was built, the transfer completed, the status is exactly 200,
the download file was created and written, and either checksum verification
is off for the file or the hash of the downloaded file was computed and
equals the precomputed checksum, in which case the recorded pull duration is
the time the leg took; in every other case the recorded pull duration and
pull success are both 0. -/
theorem C6_pull_success_iff (filesChecksum : String → String) (results : Results)
    (entry : String × TestFileParams) (push : PushEvents) (pull : PullEvents) :
    ((probeFile filesChecksum results entry push pull).pullSuccess entry.1 = 1 ↔
      (pull.requestErr = none ∧ pull.response = .ok 200 ∧ pull.createErr = none ∧
        pull.copyErr = none ∧
        (entry.2.VerifyChecksum = false ∨ pull.hash = .ok (filesChecksum entry.1)))) ∧
    ((pull.requestErr = none ∧ pull.response = .ok 200 ∧ pull.createErr = none ∧
        pull.copyErr = none ∧
        (entry.2.VerifyChecksum = false ∨ pull.hash = .ok (filesChecksum entry.1)) ∧
        (probeFile filesChecksum results entry push pull).pullDuration entry.1 = pull.elapsed) ∨
      ((probeFile filesChecksum results entry push pull).pullDuration entry.1 = 0 ∧
        (probeFile filesChecksum results entry push pull).pullSuccess entry.1 = 0)) := by
  obtain ⟨hd, hs⟩ := probeFile_pull filesChecksum results entry push pull
  rw [hd, hs, Function.update_same, Function.update_same]
  rcases pullLeg_cases entry.2.VerifyChecksum (filesChecksum entry.1) pull with
    ⟨h1, h2, h3, h4, h5, hout⟩ | ⟨hnot, hout⟩
  · rw [hout]
    exact ⟨⟨fun _ => ⟨h1, h2, h3, h4, h5⟩, fun _ => rfl⟩, Or.inl ⟨h1, h2, h3, h4, h5, rfl⟩⟩
  · rw [hout]
    refine ⟨⟨fun h => ?_, fun h => absurd h hnot⟩, Or.inr ⟨rfl, rfl⟩⟩
    norm_num at h

/-- C7: the pull leg of a file's probe runs whatever the push leg did, and
what it records does not depend on the push leg: two probes of the same file
from the same stored results that differ only in the push events leave the
same pull success map and the same pull duration map, whose values for the
file are those of the pull leg alone. -/
theorem C7_pull_independent_of_push (filesChecksum : String → String) (results : Results)
    (entry : String × TestFileParams) (push1 push2 : PushEvents) (pull : PullEvents) :
    (probeFile filesChecksum results entry push1 pull).pullSuccess
        = (probeFile filesChecksum results entry push2 pull).pullSuccess ∧
    (probeFile filesChecksum results entry push1 pull).pullDuration
        = (probeFile filesChecksum results entry push2 pull).pullDuration ∧
    (probeFile filesChecksum results entry push1 pull).pullSuccess entry.1
        = (pullLeg entry.2.VerifyChecksum (filesChecksum entry.1) pull).success ∧
    (probeFile filesChecksum results entry push1 pull).pullDuration entry.1
        = (pullLeg entry.2.VerifyChecksum (filesChecksum entry.1) pull).duration := by
  obtain ⟨hd1, hs1⟩ := probeFile_pull filesChecksum results entry push1 pull
  obtain ⟨hd2, hs2⟩ := probeFile_pull filesChecksum results entry push2 pull
  refine ⟨by rw [hs1, hs2], by rw [hd1, hd2], ?_, ?_⟩
  · rw [hs1, Function.update_same]
  · rw [hd1, Function.update_same]

/-! ## The wait between two cycles -/

theorem truncate_of_nonneg {x : ℚ} (hx : 0 ≤ x) : truncate x = ⌊x⌋ := by
  unfold truncate
  rw [if_pos hx]

theorem intervalDuration_bounds (outOfRange interval : Duration)
    (h0 : 0 ≤ interval) (h1 : interval < 2 ^ 62) :
    0 ≤ intervalDuration outOfRange interval.Seconds ∧
    intervalDuration outOfRange interval.Seconds < 2 ^ 63 ∧
    (interval : ℚ) - interval / 2 ^ 51 - 1 < intervalDuration outOfRange interval.Seconds ∧
    (intervalDuration outOfRange interval.Seconds : ℚ) ≤ interval + interval / 2 ^ 51 := by
  obtain ⟨hlo, hhi⟩ := interval_product_bounds interval h0 h1
  have hd0 : (0 : ℚ) ≤ (interval : ℚ) := by exact_mod_cast h0
  have hd1 : (interval : ℚ) < 2 ^ 62 := by exact_mod_cast h1
  have hp0 : 0 ≤ f64mul interval.Seconds 1000000000 := by
    have : (0 : ℚ) ≤ (interval : ℚ) * (1 - 1 / 2 ^ 51) := mul_nonneg hd0 (by norm_num)
    linarith
  have hp1 : f64mul interval.Seconds 1000000000 < 2 ^ 63 := by
    have : (interval : ℚ) * (1 + 1 / 2 ^ 51) ≤ 2 ^ 62 * (1 + 1 / 2 ^ 51) :=
      mul_le_mul_of_nonneg_right hd1.le (by norm_num)
    have h2 : (2 : ℚ) ^ 62 * (1 + 1 / 2 ^ 51) < 2 ^ 63 := by norm_num
    linarith
  have hfl0 : (0 : Int) ≤ ⌊f64mul interval.Seconds 1000000000⌋ := Int.floor_nonneg.mpr hp0
  have hfl1 : ⌊f64mul interval.Seconds 1000000000⌋ < 2 ^ 63 := by
    rw [Int.floor_lt]
    exact_mod_cast hp1
  have hD : intervalDuration outOfRange interval.Seconds
      = ⌊f64mul interval.Seconds 1000000000⌋ := by
    unfold intervalDuration toDuration
    rw [truncate_of_nonneg hp0, if_pos ⟨by linarith, hfl1⟩]
  rw [hD]
  have hle := Int.floor_le (f64mul interval.Seconds 1000000000)
  have hlt := Int.lt_floor_add_one (f64mul interval.Seconds 1000000000)
  refine ⟨hfl0, hfl1, ?_, ?_⟩
  · linarith
  · linarith

theorem intervalDuration_whole (outOfRange : Duration) (k : Int) (hk0 : 0 ≤ k)
    (hk : k * Second < 2 ^ 53) :
    intervalDuration outOfRange (Duration.Seconds (k * Second)) = k * Second := by
  have hkS : k ≤ k * Second := by
    unfold Second
    linarith
  have hk53 : |k| < 2 ^ 53 := by
    rw [abs_of_nonneg hk0]
    linarith
  have hprod0 : 0 ≤ k * Second := by
    unfold Second
    linarith
  have hprod : |k * Second| < 2 ^ 53 := by
    rw [abs_of_nonneg hprod0]
    exact hk
  have hmul : f64mul (k : ℚ) 1000000000 = ((k * Second : Int) : ℚ) := by
    unfold f64mul
    have hcast : (k : ℚ) * 1000000000 = ((k * Second : Int) : ℚ) := by
      unfold Second
      push_cast
      ring
    rw [hcast]
    exact round64_intCast _ hprod
  have hq0 : (0 : ℚ) ≤ ((k * Second : Int) : ℚ) := by exact_mod_cast hprod0
  unfold intervalDuration toDuration
  rw [seconds_whole k hk53, hmul, truncate_of_nonneg hq0, Int.floor_intCast]
  rw [if_pos ⟨by linarith, by linarith⟩]

theorem seconds_64100ms :
    Duration.Seconds 64100000000 = 2255318250894131 / 35184372088832 := by
  have hdiv : Int.tdiv (64100000000 : Int) Second = 64 := by decide
  have hmod : Int.tmod (64100000000 : Int) Second = 100000000 := by decide
  have h0 : round64 ((64 : Int) : ℚ) = 64 := by
    simpa using round64_intCast 64 (by norm_num)
  have h1 : round64 ((100000000 : Int) : ℚ) = 100000000 := by
    simpa using round64_intCast 100000000 (by norm_num)
  have h2 : round64 ((100000000 : ℚ) / 1000000000) = 3602879701896397 / 2 ^ 55 := by
    have h := round64_eq_of_near (100000000 / 1000000000) (-4) 7205759403792794 (by norm_num)
      (by norm_num [abs_of_pos]) (by norm_num [abs_of_pos]) (by norm_num [abs_lt])
    rw [h]
    norm_num
  have h3 : round64 ((64 : ℚ) + 3602879701896397 / 2 ^ 55)
      = 2255318250894131 / 35184372088832 := by
    have h := round64_eq_of_near (64 + 3602879701896397 / 2 ^ 55) 6 4510636501788262
      (by norm_num) (by norm_num [abs_of_pos]) (by norm_num [abs_of_pos]) (by norm_num [abs_lt])
    rw [h]
    norm_num
  unfold Duration.Seconds f64add f64div
  rw [hdiv, hmod, h0, h1, h2, h3]

theorem intervalDuration_64100ms (outOfRange : Duration) :
    intervalDuration outOfRange (2255318250894131 / 35184372088832) = 64099999999 := by
  have hmul : f64mul (2255318250894131 / 35184372088832) 1000000000
      = 8401715199999999 / 131072 := by
    unfold f64mul
    have h := round64_eq_of_near (2255318250894131 / 35184372088832 * 1000000000) 35
      8401715199999999 (by norm_num) (by norm_num [abs_of_pos]) (by norm_num [abs_of_pos])
      (by norm_num [abs_lt])
    rw [h]
    norm_num
  have hfloor : ⌊(8401715199999999 : ℚ) / 131072⌋ = 64099999999 := by
    rw [Int.floor_eq_iff]
    constructor <;> norm_num
  unfold intervalDuration toDuration
  rw [hmul, truncate_of_nonneg (by norm_num), hfloor]
  rw [if_pos ⟨by norm_num, by norm_num⟩]

/-- C8 (as stated, refuted): with a configured interval of 64.1 seconds,
accepted by startup, and a cycle that ran 20 seconds, the `float64` product
of line 211 converts the interval to 64099999999 nanoseconds, so the loop
sleeps 44099999999 nanoseconds: one nanosecond less than interval - elapsed.
The value taken for a conversion out of range, 0 here, plays no part. -/
theorem C8_wait_one_nanosecond_short :
    resolveTestsInterval 64100000000 = .ok (2255318250894131 / 35184372088832) ∧
    (20000000000 : Duration) < 64100000000 ∧
    timeToWait 0 (2255318250894131 / 35184372088832) 20000000000 = 44099999999 ∧
    Sleep (timeToWait 0 (2255318250894131 / 35184372088832) 20000000000) = 44099999999 ∧
    Sleep (timeToWait 0 (2255318250894131 / 35184372088832) 20000000000)
      ≠ 64100000000 - 20000000000 := by
  have hwait : timeToWait 0 (2255318250894131 / 35184372088832) 20000000000 = 44099999999 := by
    unfold timeToWait
    rw [intervalDuration_64100ms 0]
    exact wrapInt64_of_range _ (by norm_num) (by norm_num)
  refine ⟨?_, by decide, hwait, ?_, ?_⟩
  · unfold resolveTestsInterval
    rw [seconds_64100ms]
    norm_num
  · rw [hwait]
    decide
  · rw [hwait]
    decide

/-- C8 (amended): line 211 converts the interval to nanoseconds by a
`float64` product whose fraction is discarded.  For a configured interval
from 0 up to `2 ^ 62` nanoseconds and an elapsed running time that is not
negative, whatever the platform does with a conversion out of range: the
converted interval lies within `1 + interval / 2 ^ 51` nanoseconds of the
interval, and is the interval itself when that is a whole number of seconds
below `2 ^ 53` nanoseconds (the default of 60 seconds is); when the elapsed
time is less than the converted interval the loop sleeps exactly the
converted interval minus the elapsed time; when it is the converted interval
or more the computed `timeToWait` is at most 0 and the loop sleeps no time at
all; the sleep is never negative and never longer than the converted
interval. -/
theorem C8_wait_is_converted_remainder (outOfRange interval elapsed : Duration)
    (hinterval : 0 ≤ interval) (hbound : interval < 2 ^ 62)
    (helapsed : 0 ≤ elapsed) (hint64 : elapsed < 2 ^ 63) :
    ((interval : ℚ) - interval / 2 ^ 51 - 1 < intervalDuration outOfRange interval.Seconds ∧
      (intervalDuration outOfRange interval.Seconds : ℚ) ≤ interval + interval / 2 ^ 51) ∧
    ((∃ k : Int, interval = k * Second) → interval < 2 ^ 53 →
      intervalDuration outOfRange interval.Seconds = interval) ∧
    (elapsed < intervalDuration outOfRange interval.Seconds →
      Sleep (timeToWait outOfRange interval.Seconds elapsed)
        = intervalDuration outOfRange interval.Seconds - elapsed) ∧
    (intervalDuration outOfRange interval.Seconds ≤ elapsed →
      timeToWait outOfRange interval.Seconds elapsed ≤ 0 ∧
      Sleep (timeToWait outOfRange interval.Seconds elapsed) = 0) ∧
    0 ≤ Sleep (timeToWait outOfRange interval.Seconds elapsed) ∧
    Sleep (timeToWait outOfRange interval.Seconds elapsed)
      ≤ intervalDuration outOfRange interval.Seconds := by
  obtain ⟨hD0, hD1, hlo, hhi⟩ := intervalDuration_bounds outOfRange interval hinterval hbound
  have hwait : timeToWait outOfRange interval.Seconds elapsed
      = intervalDuration outOfRange interval.Seconds - elapsed := by
    unfold timeToWait
    exact wrapInt64_of_range _ (by linarith) (by linarith)
  rw [hwait]
  refine ⟨⟨hlo, hhi⟩, ?_, fun hlt => ?_, fun hle => ?_, ?_, ?_⟩
  · rintro ⟨k, hk⟩ h53
    have hk0 : 0 ≤ k := by
      by_contra hneg
      rw [not_le] at hneg
      have : k * Second < 0 := by
        unfold Second
        linarith
      linarith
    rw [hk] at h53 ⊢
    exact intervalDuration_whole outOfRange k hk0 h53
  · have hpos : ¬ (intervalDuration outOfRange interval.Seconds - elapsed ≤ 0) := by
      rw [not_le]
      linarith
    unfold Sleep
    rw [if_neg hpos]
  · have hnonpos : intervalDuration outOfRange interval.Seconds - elapsed ≤ 0 := by linarith
    refine ⟨hnonpos, ?_⟩
    unfold Sleep
    rw [if_pos hnonpos]
  · unfold Sleep
    split
    · exact le_refl _
    · rename_i hpos
      rw [not_le] at hpos
      exact hpos.le
  · unfold Sleep
    split
    · exact hD0
    · linarith

theorem C8_wait_is_converted_remainder_witness :
    (0 : Duration) ≤ 60000000000 ∧ (60000000000 : Duration) < 2 ^ 62 ∧
    (0 : Duration) ≤ 20000000000 ∧ (20000000000 : Duration) < 2 ^ 63 ∧
    intervalDuration 0 (Duration.Seconds 60000000000) = 60000000000 ∧
    (20000000000 < intervalDuration 0 (Duration.Seconds 60000000000) →
      Sleep (timeToWait 0 (Duration.Seconds 60000000000) 20000000000)
        = intervalDuration 0 (Duration.Seconds 60000000000) - 20000000000) ∧
    0 ≤ Sleep (timeToWait 0 (Duration.Seconds 60000000000) 20000000000) :=
  ⟨by decide, by decide, by decide, by decide,
    (C8_wait_is_converted_remainder 0 60000000000 20000000000 (by decide) (by decide)
      (by decide) (by decide)).2.1 ⟨60, by decide⟩ (by decide),
    (C8_wait_is_converted_remainder 0 60000000000 20000000000 (by decide) (by decide)
      (by decide) (by decide)).2.2.1,
    (C8_wait_is_converted_remainder 0 60000000000 20000000000 (by decide) (by decide)
      (by decide) (by decide)).2.2.2.2.1⟩

/-! ## The result maps as a metrics read sees them -/

theorem loopInit_inv (testFiles order : List (String × TestFileParams))
    (hperm : order.Perm testFiles) (hnodup : (testFiles.map Prod.fst).Nodup) :
    LoopInv testFiles (loopInit order) := by
  have hkeys := hperm.map Prod.fst
  refine ⟨le_refl _, (hkeys.nodup_iff).mpr hnodup, fun f hf => (hkeys.mem_iff).mp hf,
    Nat.zero_le _, fun _ => rfl, fun entry rest _ => ⟨fun h => ?_, fun h => ?_⟩,
    fun f => ⟨rfl, rfl⟩, fun f _ => ?_⟩
  · simp [loopInit] at h
  · simp [loopInit] at h
  · simp [loopInit, Results.empty]

theorem logAt_same (log : Nat → String → LegOutcome) (cycle : Nat) (fileName : String)
    (outcome : LegOutcome) : logAt log cycle fileName outcome cycle fileName = outcome := by
  simp [logAt]

theorem logAt_other_file (log : Nat → String → LegOutcome) (cycle n : Nat) (fileName f : String)
    (outcome : LegOutcome) (h : f ≠ fileName) : logAt log cycle fileName outcome n f = log n f := by
  simp [logAt, h]

theorem logAt_other_cycle (log : Nat → String → LegOutcome) (cycle n : Nat) (fileName f : String)
    (outcome : LegOutcome) (h : n ≠ cycle) : logAt log cycle fileName outcome n f = log n f := by
  simp [logAt, h]

theorem loopStep_inv (testFiles : List (String × TestFileParams))
    (filesChecksum : String → String) (hnodup : (testFiles.map Prod.fst).Nodup)
    (s : LoopState) (ev : LoopEvent) (hs : LoopInv testFiles s) :
    LoopInv testFiles (loopStep testFiles filesChecksum s ev) := by
  obtain ⟨results, pending, written, leg, cycle, pushLog, pullLog⟩ := s
  have hs0 := hs
  obtain ⟨hc, hnd, hsub, hw, hempty, hleg, hzero, hall⟩ := hs
  simp only at hc hnd hsub hw hempty hleg hzero
  have hcyc : cycle - 1 ≠ cycle := by omega
  have hcyc0 : 0 ≠ cycle := by omega
  cases ev with
  | pushEnds pev =>
    cases pending with
    | nil => exact hs0
    | cons entry rest =>
      rcases written with _ | w
      · refine ⟨hc, hnd, hsub, by simp [loopStep], by simp [loopStep], ?_, ?_, ?_⟩
        · intro e r hp
          simp only [loopStep, List.cons.injEq] at hp ⊢
          obtain ⟨rfl, rfl⟩ := hp
          exact ⟨fun _ => (logAt_same _ _ _ _).symm, fun h => absurd h (by decide)⟩
        · intro f
          simp only [loopStep, logAt_other_cycle _ _ _ _ _ _ hcyc0]
          exact hzero f
        · intro f hf
          have hold := hall f hf
          simp only [LoopState.stamp, LoopState.progress, loopStep] at hold ⊢
          by_cases hfe : entry.1 = f
          · subst hfe
            simp only [if_true, Nat.lt_irrefl, Nat.not_lt_zero, if_false] at hold
            simp only [if_true, Function.update_same, Nat.zero_lt_one, logAt_same,
              Nat.lt_irrefl, show ¬ (2 < 1) by decide, show ¬ (3 < 1) by decide, if_false,
              logAt_other_cycle _ _ _ _ _ _ hcyc]
            exact ⟨trivial, hold.2.1, hold.2.2.1, hold.2.2.2⟩
          · simp only [if_neg hfe] at hold ⊢
            rw [Function.update_noteq (Ne.symm hfe)]
            simp only [logAt_other_file _ _ _ _ _ _ (Ne.symm hfe)]
            exact hold
      · exact hs0
  | pullEnds pev =>
    cases pending with
    | nil => exact hs0
    | cons entry rest =>
      rcases written with _ | _ | _ | w
      · exact hs0
      · exact hs0
      · refine ⟨hc, hnd, hsub, by simp [loopStep], by simp [loopStep], ?_, ?_, ?_⟩
        · intro e r hp
          simp only [loopStep, List.cons.injEq] at hp ⊢
          obtain ⟨rfl, rfl⟩ := hp
          exact ⟨fun h => absurd h (by decide), fun _ => (logAt_same _ _ _ _).symm⟩
        · intro f
          simp only [loopStep, logAt_other_cycle _ _ _ _ _ _ hcyc0]
          exact hzero f
        · intro f hf
          have hold := hall f hf
          simp only [LoopState.stamp, LoopState.progress, loopStep] at hold ⊢
          by_cases hfe : entry.1 = f
          · subst hfe
            simp only [if_true, show (0 < 2) by decide, show (1 < 2) by decide,
              Nat.lt_irrefl, show ¬ (3 < 2) by decide, if_false] at hold
            simp only [if_true, Function.update_same, show (0 < 3) by decide,
              show (1 < 3) by decide, show (2 < 3) by decide, logAt_same,
              Nat.lt_irrefl, if_false, logAt_other_cycle _ _ _ _ _ _ hcyc]
            exact ⟨hold.1, hold.2.1, trivial, hold.2.2.2⟩
          · simp only [if_neg hfe] at hold ⊢
            rw [Function.update_noteq (Ne.symm hfe)]
            simp only [logAt_other_file _ _ _ _ _ _ (Ne.symm hfe)]
            exact hold
      · exact hs0
  | write =>
    cases pending with
    | nil => exact hs0
    | cons entry rest =>
      rcases written with _ | _ | _ | _ | w
      · exact hs0
      · -- the write to `pushSuccess`
        have hl := (hleg entry rest rfl).1 rfl
        refine ⟨hc, hnd, hsub, by simp [loopStep], by simp [loopStep], ?_, hzero, ?_⟩
        · intro e r hp
          simp only [loopStep] at hp ⊢
          exact ⟨fun h => absurd h (by decide), fun h => absurd h (by decide)⟩
        · intro f hf
          have hold := hall f hf
          simp only [LoopState.stamp, LoopState.progress, loopStep] at hold ⊢
          by_cases hfe : entry.1 = f
          · subst hfe
            simp only [if_true, Nat.zero_lt_one, Nat.lt_irrefl, show ¬ (2 < 1) by decide,
              show ¬ (3 < 1) by decide, if_false] at hold
            simp only [if_true, Function.update_same, show (0 < 2) by decide,
              show (1 < 2) by decide, Nat.lt_irrefl, show ¬ (3 < 2) by decide, if_false]
            exact ⟨hold.1, by rw [hl], hold.2.2.1, hold.2.2.2⟩
          · simp only [if_neg hfe] at hold ⊢
            rw [Function.update_noteq (Ne.symm hfe)]
            exact hold
      · exact hs0
      · -- the write to `pullSuccess`, which ends the probe of the file
        have hl := (hleg entry rest rfl).2 rfl
        simp only [List.map_cons, List.nodup_cons] at hnd
        refine ⟨hc, hnd.2, fun f hf => hsub f (List.mem_cons_of_mem _ hf), by simp [loopStep],
          fun _ => rfl, ?_, hzero, ?_⟩
        · intro e r hp
          simp only [loopStep] at hp ⊢
          exact ⟨fun h => absurd h (by decide), fun h => absurd h (by decide)⟩
        · intro f hf
          have hold := hall f hf
          simp only [LoopState.stamp, LoopState.progress, loopStep] at hold ⊢
          by_cases hfe : entry.1 = f
          · subst hfe
            have hnot : ∀ i, i < 4 →
                (if i < (match rest with
                  | [] => 4
                  | e :: r => if e.1 = entry.1 then 0
                    else if entry.1 ∈ r.map Prod.fst then 0 else 4) then cycle else cycle - 1)
                  = cycle := by
              intro i hi
              cases rest with
              | nil => simp [hi]
              | cons e r =>
                simp only [List.map_cons, List.mem_cons, not_or] at hnd
                have h1 : ¬ e.1 = entry.1 := fun h => hnd.1.1 h.symm
                simp [h1, hnd.1.2, hi]
            simp only [if_true, show (0 < 3) by decide, show (1 < 3) by decide,
              show (2 < 3) by decide, Nat.lt_irrefl, if_false] at hold
            rw [hnot 0 (by decide), hnot 1 (by decide), hnot 2 (by decide), hnot 3 (by decide),
              Function.update_same]
            exact ⟨hold.1, hold.2.1, hold.2.2.1, by rw [hl]⟩
          · simp only [if_neg hfe] at hold
            rw [Function.update_noteq (Ne.symm hfe)]
            have hsame : ∀ i,
                (if i < (match rest with
                  | [] => 4
                  | e :: r => if e.1 = f then 0
                    else if f ∈ r.map Prod.fst then 0 else 4) then cycle else cycle - 1)
                  = (if i < (if f ∈ rest.map Prod.fst then 0 else 4) then cycle
                      else cycle - 1) := by
              intro i
              cases rest with
              | nil => simp
              | cons e r =>
                by_cases h1 : e.1 = f
                · simp [h1]
                · have h2 : ¬ f = e.1 := fun h => h1 h.symm
                  simp only [List.map_cons, List.mem_cons, h1, h2, if_false, false_or]
            rw [hsame 0, hsame 1, hsame 2, hsame 3]
            exact hold
      · exact hs0
  | nextCycle order =>
    cases pending with
    | cons entry rest => exact hs0
    | nil =>
      by_cases hperm : order.Perm testFiles
      · have hw0 : written = 0 := hempty rfl
        subst hw0
        have hkeys := hperm.map Prod.fst
        simp only [loopStep, if_pos hperm]
        refine ⟨Nat.le_succ_of_le hc, (hkeys.nodup_iff).mpr hnodup,
          fun f hf => (hkeys.mem_iff).mp hf, Nat.zero_le _, fun _ => rfl, ?_, hzero, ?_⟩
        · intro e r _
          simp
        · intro f hf
          have hold := hall f hf
          have hin : f ∈ order.map Prod.fst := (hkeys.mem_iff).mpr hf
          simp only [LoopState.stamp, LoopState.progress] at hold ⊢
          have hnew : ∀ i,
              (if i < (match order with
                | [] => 4
                | e :: r => if e.1 = f then 0
                  else if f ∈ r.map Prod.fst then 0 else 4) then cycle + 1
                else cycle + 1 - 1) = cycle := by
            intro i
            cases order with
            | nil => simp at hin
            | cons e r =>
              simp only [List.map_cons, List.mem_cons] at hin
              by_cases h1 : e.1 = f
              · simp [h1]
              · have h2 : f ∈ r.map Prod.fst := by
                  rcases hin with h | h
                  · exact absurd h.symm h1
                  · exact h
                simp [h1, h2]
          rw [hnew 0, hnew 1, hnew 2, hnew 3]
          simp only [show (0 < 4) by decide, show (1 < 4) by decide, show (2 < 4) by decide,
            show (3 < 4) by decide, if_true] at hold
          exact hold
      · simp only [loopStep, if_neg hperm]
        exact hs0

theorem loopRun_inv (testFiles : List (String × TestFileParams))
    (filesChecksum : String → String) (hnodup : (testFiles.map Prod.fst).Nodup) :
    ∀ (events : List LoopEvent) (s : LoopState), LoopInv testFiles s →
      LoopInv testFiles (loopRun testFiles filesChecksum s events)
  | [], _, hs => hs
  | ev :: rest, s, hs =>
    loopRun_inv testFiles filesChecksum hnodup rest _
      (loopStep_inv testFiles filesChecksum hnodup s ev hs)

theorem loopRun_probe (testFiles : List (String × TestFileParams))
    (filesChecksum : String → String) (s : LoopState) (entry : String × TestFileParams)
    (rest : List (String × TestFileParams)) (push : PushEvents) (pull : PullEvents)
    (hp : s.pending = entry :: rest) (hw : s.written = 0) :
    (loopRun testFiles filesChecksum s [.pushEnds push, .write, .pullEnds pull, .write]).results
      = probeFile filesChecksum s.results entry push pull ∧
    (loopRun testFiles filesChecksum s [.pushEnds push, .write, .pullEnds pull, .write]).pending
      = rest := by
  obtain ⟨results, pending, written, leg, cycle, pushLog, pullLog⟩ := s
  simp only at hp hw
  subst hp
  subst hw
  simp [loopRun, loopStep, probeFile, commitPush, commitPull]

theorem progress_le (s : LoopState) (f : String) (hw : s.written ≤ 3) : s.progress f ≤ 4 := by
  unfold LoopState.progress
  split
  · exact le_refl _
  · split
    · exact le_trans hw (by decide)
    · split
      · exact Nat.zero_le _
      · exact le_refl _

theorem tornTrace_reachable :
    Reachable [("a", unsetFile)] (fun _ => "")
      (loopRun [("a", unsetFile)] (fun _ => "") (loopInit [("a", unsetFile)]) tornTrace) :=
  ⟨[("a", unsetFile)], tornTrace, List.Perm.refl _, rfl⟩

theorem mixedTrace_reachable :
    Reachable [("a", unsetFile)] (fun _ => "")
      (loopRun [("a", unsetFile)] (fun _ => "") (loopInit [("a", unsetFile)]) mixedTrace) :=
  ⟨[("a", unsetFile)], mixedTrace, List.Perm.refl _, rfl⟩

/-- C9 (as stated, refuted): with the one file `a`, whose first cycle
succeeds in both legs and whose push leg fails in the second cycle.  The
state after both writes of that push leg is reachable, and in it the stored
push outcome of `a` is the one the push leg computed in cycle 2 (duration 0,
success 0) while the stored pull outcome is still the one the pull leg
computed in cycle 1 (duration 3, success 1).  One write earlier the stored
push duration is already that of cycle 2 while the stored push success is
still that of cycle 1. -/
theorem C9_mixed_cycles_observable :
    Reachable [("a", unsetFile)] (fun _ => "")
      (loopRun [("a", unsetFile)] (fun _ => "") (loopInit [("a", unsetFile)]) mixedTrace) ∧
    (loopRun [("a", unsetFile)] (fun _ => "") (loopInit [("a", unsetFile)]) mixedTrace).cycle
      = 2 ∧
    (loopRun [("a", unsetFile)] (fun _ => "") (loopInit [("a", unsetFile)]) mixedTrace).pushLog
      2 "a" = { duration := 0, success := 0 } ∧
    (loopRun [("a", unsetFile)] (fun _ => "") (loopInit [("a", unsetFile)]) mixedTrace).pushLog
      1 "a" = { duration := 2, success := 1 } ∧
    (loopRun [("a", unsetFile)] (fun _ => "") (loopInit [("a", unsetFile)]) mixedTrace).pullLog
      1 "a" = { duration := 3, success := 1 } ∧
    (loopRun [("a", unsetFile)] (fun _ => "") (loopInit [("a", unsetFile)])
      mixedTrace).results.pushDuration "a" = 0 ∧
    (loopRun [("a", unsetFile)] (fun _ => "") (loopInit [("a", unsetFile)])
      mixedTrace).results.pushSuccess "a" = 0 ∧
    (loopRun [("a", unsetFile)] (fun _ => "") (loopInit [("a", unsetFile)])
      mixedTrace).results.pullDuration "a" = 3 ∧
    (loopRun [("a", unsetFile)] (fun _ => "") (loopInit [("a", unsetFile)])
      mixedTrace).results.pullSuccess "a" = 1 ∧
    Reachable [("a", unsetFile)] (fun _ => "")
      (loopRun [("a", unsetFile)] (fun _ => "") (loopInit [("a", unsetFile)]) tornTrace) ∧
    (loopRun [("a", unsetFile)] (fun _ => "") (loopInit [("a", unsetFile)])
      tornTrace).results.pushDuration "a" = 0 ∧
    (loopRun [("a", unsetFile)] (fun _ => "") (loopInit [("a", unsetFile)])
      tornTrace).results.pushSuccess "a" = 1 := by
  refine ⟨mixedTrace_reachable, ?_, ?_, ?_, ?_, ?_, ?_, ?_, ?_, tornTrace_reachable, ?_, ?_⟩ <;>
    simp [loopRun, mixedTrace, tornTrace, loopStep, loopInit, logAt, pushLeg, pullLeg,
      pushOk, pushFailed, pullOk, unsetFile, Results.empty]

/-- C9 (amended): a file's outcome is not committed at once.  Its probe makes
four writes with no lock, in this order: push duration and push success when
the push leg ends, pull duration and pull success when the pull leg ends.
With distinct file names, in every reachable state and for every configured
file, each of the four stored values is the one the leg computed in the cycle
that `stamp` names: the cycle in progress for the writes the file's probe has
made in it, the cycle before for the others (a cycle 0 stands for the
initial values 0).  So outside a file's probe its four stored values come
from one and the same cycle, and inside it the values already written are of
the cycle in progress and the others of the cycle before, the push duration
being of the cycle in progress and the pull success of the cycle before.  A
request reads the maps with no lock (lines 253-258), so any of these states
can be the one it reads. -/
theorem C9_stored_values_by_cycle (testFiles : List (String × TestFileParams))
    (filesChecksum : String → String) (s : LoopState) (fileName : String)
    (hnodup : (testFiles.map Prod.fst).Nodup)
    (hmem : fileName ∈ testFiles.map Prod.fst)
    (hreach : Reachable testFiles filesChecksum s) :
    (s.results.pushDuration fileName
        = (s.pushLog (s.stamp fileName 0) fileName).duration ∧
      s.results.pushSuccess fileName
        = (s.pushLog (s.stamp fileName 1) fileName).success ∧
      s.results.pullDuration fileName
        = (s.pullLog (s.stamp fileName 2) fileName).duration ∧
      s.results.pullSuccess fileName
        = (s.pullLog (s.stamp fileName 3) fileName).success) ∧
    (s.pushLog 0 fileName = { duration := 0, success := 0 } ∧
      s.pullLog 0 fileName = { duration := 0, success := 0 }) ∧
    (s.stamp fileName 3 ≤ s.stamp fileName 2 ∧ s.stamp fileName 2 ≤ s.stamp fileName 1 ∧
      s.stamp fileName 1 ≤ s.stamp fileName 0 ∧ s.stamp fileName 0 ≤ s.cycle ∧
      s.cycle ≤ s.stamp fileName 3 + 1) ∧
    (¬ s.inProbe fileName →
      s.stamp fileName 0 = s.stamp fileName 1 ∧ s.stamp fileName 1 = s.stamp fileName 2 ∧
      s.stamp fileName 2 = s.stamp fileName 3) ∧
    (s.inProbe fileName →
      s.stamp fileName 0 = s.cycle ∧ s.stamp fileName 3 + 1 = s.cycle) := by
  obtain ⟨order, events, hperm, rfl⟩ := hreach
  have hinv := loopRun_inv testFiles filesChecksum hnodup events (loopInit order)
    (loopInit_inv testFiles order hperm hnodup)
  obtain ⟨hc, -, -, hw, -, -, hzero, hall⟩ := hinv
  have hp4 := progress_le _ fileName hw
  refine ⟨hall fileName hmem, hzero fileName, ?_, ?_, ?_⟩
  · unfold LoopState.stamp
    refine ⟨?_, ?_, ?_, ?_, ?_⟩ <;> split_ifs <;> omega
  · intro hn
    unfold LoopState.inProbe at hn
    unfold LoopState.stamp
    refine ⟨?_, ?_, ?_⟩ <;> split_ifs <;> omega
  · intro hin
    unfold LoopState.inProbe at hin
    unfold LoopState.stamp
    refine ⟨?_, ?_⟩ <;> split_ifs <;> omega

theorem C9_stored_values_by_cycle_witness :
    ([("a", unsetFile)].map Prod.fst).Nodup ∧
    "a" ∈ [("a", unsetFile)].map Prod.fst ∧
    Reachable [("a", unsetFile)] (fun _ => "")
      (loopRun [("a", unsetFile)] (fun _ => "") (loopInit [("a", unsetFile)]) mixedTrace) ∧
    (loopRun [("a", unsetFile)] (fun _ => "") (loopInit [("a", unsetFile)])
      mixedTrace).inProbe "a" ∧
    (loopRun [("a", unsetFile)] (fun _ => "") (loopInit [("a", unsetFile)])
        mixedTrace).stamp "a" 0
      = (loopRun [("a", unsetFile)] (fun _ => "") (loopInit [("a", unsetFile)])
        mixedTrace).cycle ∧
    (loopRun [("a", unsetFile)] (fun _ => "") (loopInit [("a", unsetFile)])
        mixedTrace).stamp "a" 3 + 1
      = (loopRun [("a", unsetFile)] (fun _ => "") (loopInit [("a", unsetFile)])
        mixedTrace).cycle := by
  have hnodup : ([("a", unsetFile)].map Prod.fst).Nodup := by simp
  have hmem : "a" ∈ [("a", unsetFile)].map Prod.fst := by simp
  have hprobe : (loopRun [("a", unsetFile)] (fun _ => "") (loopInit [("a", unsetFile)])
      mixedTrace).inProbe "a" := by
    simp [LoopState.inProbe, LoopState.progress, loopRun, mixedTrace, tornTrace, loopStep,
      loopInit]
  exact ⟨hnodup, hmem, mixedTrace_reachable, hprobe,
    (C9_stored_values_by_cycle [("a", unsetFile)] (fun _ => "") _ "a" hnodup hmem
      mixedTrace_reachable).2.2.2.2 hprobe⟩

/-! ## The metrics handler -/

theorem defBuckets_increasing : strictlyIncreasing DefBuckets = true := by
  have h1 := @round64_half (5 / 1000) (by norm_num)
  have h2 := @round64_half (1 / 100) (by norm_num)
  have h3 := @round64_half (25 / 1000) (by norm_num)
  have h4 := @round64_half (5 / 100) (by norm_num)
  have h5 := @round64_half (1 / 10) (by norm_num)
  have h6 := @round64_half (25 / 100) (by norm_num)
  have h7 := @round64_half (5 / 10) (by norm_num)
  have h8 := @round64_half 1 (by norm_num)
  have h9 := @round64_half (25 / 10) (by norm_num)
  have h10 := @round64_half 5 (by norm_num)
  have h11 := @round64_half 10 (by norm_num)
  simp only [DefBuckets, List.map, strictlyIncreasing, Bool.and_eq_true, decide_eq_true_eq,
    and_true]
  norm_num at h1 h2 h3 h4 h5 h6 h7 h8 h9 h10 h11
  refine ⟨?_, ?_, ?_, ?_, ?_, ?_, ?_, ?_, ?_, ?_⟩ <;> linarith

theorem newHistogram_nil : newHistogram [] = .ok (Histogram.new DefBuckets) := by
  unfold newHistogram
  simp only [if_true]
  rw [if_pos defBuckets_increasing]

theorem newHistogram_not_increasing :
    newHistogram [5, 1] = .error "histogram buckets must be in increasing order" := by
  unfold newHistogram
  norm_num [strictlyIncreasing]

theorem find?_observeChild (label : String) (v : ℚ) :
    ∀ cs : List (String × Histogram),
      (observeChild cs label v).find? (fun c => c.1 = label)
        = (cs.find? fun c => c.1 = label).map fun c => (c.1, c.2.Observe v)
  | [] => rfl
  | c :: rest => by
    have ih := find?_observeChild label v rest
    unfold observeChild at ih ⊢
    by_cases hc : c.1 = label
    · simp [List.find?, hc]
    · simp [List.find?, hc, ih]

theorem observe_ok {vec vec1 : HistogramVec} {label : String} {v : ℚ}
    (h : vec.observe label v = .ok vec1) :
    vec1.name = vec.name ∧ vec1.buckets = vec.buckets ∧
    ∃ h0, vec1.child label = some (h0.Observe v) ∧
      (vec.child label = some h0 ∨ (vec.child label = none ∧ newHistogram vec.buckets = .ok h0)) := by
  unfold HistogramVec.observe at h
  cases hc : vec.child label with
  | some h0 =>
    rw [hc] at h
    simp only [Except.ok.injEq] at h
    subst h
    refine ⟨rfl, rfl, h0, ?_, Or.inl rfl⟩
    unfold HistogramVec.child at hc ⊢
    simp only [find?_observeChild]
    cases hf : vec.children.find? (fun c => c.1 = label) with
    | none => rw [hf] at hc; simp at hc
    | some c =>
      rw [hf] at hc
      simp only [Option.map_some', Option.some.injEq] at hc
      simp [hc]
  | none =>
    rw [hc] at h
    simp only at h
    split at h
    · exact absurd h (by simp)
    · rename_i h0 hnew
      simp only [Except.ok.injEq] at h
      subst h
      refine ⟨rfl, rfl, h0, ?_, Or.inr ⟨rfl, hnew⟩⟩
      have hfind : vec.children.find? (fun c => c.1 = label) = none := by
        unfold HistogramVec.child at hc
        simpa using hc
      simp [HistogramVec.child, List.find?_append, hfind, List.find?]

theorem observe_of_child {vec : HistogramVec} {label : String} {h0 : Histogram} (v : ℚ)
    (hc : vec.child label = some h0) :
    vec.observe label v = .ok { vec with children := observeChild vec.children label v } := by
  unfold HistogramVec.observe
  rw [hc]

theorem registerAll_ok_iff :
    ∀ (cs : List Registered) (registry r : Registry),
      registerAll registry cs = .ok r ↔ (r = registry ++ cs ∧ Fresh registry cs)
  | [], registry, r => by
    simp [registerAll, Fresh, eq_comm]
  | c :: cs, registry, r => by
    unfold registerAll MustRegister
    by_cases hc : c.name ∈ registry.map Registered.name
    · rw [if_pos hc]
      constructor
      · intro h
        exact absurd h (by simp)
      · rintro ⟨-, hfresh⟩
        exact absurd hc (hfresh.1 c (List.mem_cons_self _ _))
    · rw [if_neg hc]
      simp only
      rw [registerAll_ok_iff cs (registry ++ [c]) r]
      unfold Fresh
      simp only [List.append_assoc, List.singleton_append, List.map_append, List.map_cons,
        List.map_nil, List.mem_append, List.mem_singleton, List.mem_cons, List.nodup_cons,
        List.mem_map, forall_eq_or_imp, List.not_mem_nil, or_false]
      constructor
      · rintro ⟨hr, h1, h2⟩
        refine ⟨hr, ⟨?_, fun d hd hmem => ?_⟩, ?_, h2⟩
        · rintro ⟨x, hx, hname⟩
          exact hc (List.mem_map.mpr ⟨x, hx, hname⟩)
        · exact h1 d hd (Or.inl hmem)
        · rintro ⟨d, hd, hname⟩
          exact h1 d hd (Or.inr hname)
      · rintro ⟨hr, ⟨-, h1⟩, h3, h2⟩
        refine ⟨hr, fun d hd hmem => ?_, h2⟩
        rcases hmem with hmem | hname
        · exact h1 d hd hmem
        · exact h3 ⟨d, hd, hname⟩

theorem registerFile_eq {st : CollectorState} {entry : String × TestFileParams}
    {vp vl : HistogramVec}
    (hp : st.pushHistograms entry.1 = some vp) (hl : st.pullHistograms entry.1 = some vl) :
    registerFile st entry = registerAll st.registry
      [ .pushHistogram entry.1 vp.name, .pullHistogram entry.1 vl.name,
        .gauge (pushDurationGaugeName entry.2) [], .gauge (pullDurationGaugeName entry.2) [],
        .gauge (successPushGaugeName entry.2) [], .gauge (successPullGaugeName entry.2) [] ] := by
  simp only [registerFile, histogramCollector, hp, hl, bind, Except.bind, registerAll]
  generalize MustRegister st.registry (.pushHistogram entry.1 vp.name) = x1
  cases x1 with
  | error e => rfl
  | ok r1 =>
    simp only
    generalize MustRegister r1 (.pullHistogram entry.1 vl.name) = x2
    cases x2 with
    | error e => rfl
    | ok r2 =>
      simp only
      generalize MustRegister r2 (.gauge (pushDurationGaugeName entry.2) []) = x3
      cases x3 with
      | error e => rfl
      | ok r3 =>
        simp only
        generalize MustRegister r3 (.gauge (pullDurationGaugeName entry.2) []) = x4
        cases x4 with
        | error e => rfl
        | ok r4 =>
          simp only
          generalize MustRegister r4 (.gauge (successPushGaugeName entry.2) []) = x5
          cases x5 with
          | error e => rfl
          | ok r5 =>
            simp only
            generalize MustRegister r5 (.gauge (successPullGaugeName entry.2) []) = x6
            cases x6 with
            | error e => rfl
            | ok r6 => rfl

theorem registerFile_error_of_nil {st : CollectorState} {entry : String × TestFileParams}
    (h : st.pushHistograms entry.1 = none ∨ st.pullHistograms entry.1 = none) :
    ∃ err, registerFile st entry = .error err := by
  unfold registerFile histogramCollector
  cases hp : st.pushHistograms entry.1 with
  | none => exact ⟨_, rfl⟩
  | some vp =>
    cases hl : st.pullHistograms entry.1 with
    | none =>
      simp only [bind, Except.bind]
      split
      · exact ⟨_, rfl⟩
      · exact ⟨_, rfl⟩
    | some vl =>
      rcases h with h | h
      · rw [hp] at h
        exact absurd h (by simp)
      · rw [hl] at h
        exact absurd h (by simp)

theorem setGauge_fresh (registry : Registry) (name label : String) (v : ℚ)
    (h : name ∉ registry.map Registered.name) : setGauge registry name label v = registry := by
  unfold setGauge
  conv_rhs => rw [← List.map_id registry]
  apply List.map_congr_left
  intro c hc
  cases c with
  | pushHistogram key n => rfl
  | pullHistogram key n => rfl
  | gauge n samples =>
    have hne : n ≠ name := by
      intro heq
      apply h
      exact List.mem_map.mpr ⟨_, hc, by simp [Registered.name, heq]⟩
    simp [hne]

theorem setGauge_append (a b : Registry) (name label : String) (v : ℚ) :
    setGauge (a ++ b) name label v = setGauge a name label v ++ setGauge b name label v := by
  unfold setGauge
  rw [List.map_append]

theorem fresh_setGauge {results : Results} {st : CollectorState}
    {entry : String × TestFileParams} {vp vl : HistogramVec}
    (hp : st.pushHistograms entry.1 = some vp) (hl : st.pullHistograms entry.1 = some vl)
    (hfresh : Fresh st.registry (fileCollectors results st.pushHistograms st.pullHistograms entry)) :
    setGauge (setGauge (setGauge (setGauge
      (st.registry ++
        [ .pushHistogram entry.1 vp.name, .pullHistogram entry.1 vl.name,
          .gauge (pushDurationGaugeName entry.2) [], .gauge (pullDurationGaugeName entry.2) [],
          .gauge (successPushGaugeName entry.2) [], .gauge (successPullGaugeName entry.2) [] ])
      (pushDurationGaugeName entry.2) entry.1 (results.pushDuration entry.1))
      (pullDurationGaugeName entry.2) entry.1 (results.pullDuration entry.1))
      (successPushGaugeName entry.2) entry.1 (results.pushSuccess entry.1))
      (successPullGaugeName entry.2) entry.1 (results.pullSuccess entry.1)
    = st.registry ++ fileCollectors results st.pushHistograms st.pullHistograms entry := by
  obtain ⟨hnew, hnodup⟩ := hfresh
  simp only [fileCollectors, nameAt, hp, hl, Option.map_some', Option.getD_some, List.map_cons,
    List.map_nil, Registered.name, List.nodup_cons, List.mem_cons, List.mem_singleton,
    List.not_mem_nil, not_or, or_false, not_false_eq_true, List.nodup_nil, and_true,
    forall_eq_or_imp, forall_eq, false_implies, implies_true] at hnew hnodup
  obtain ⟨-, -, h3, h4, h5, h6⟩ := hnew
  obtain ⟨-, -, ⟨h34, h35, h36⟩, ⟨h45, h46⟩, h56⟩ := hnodup
  simp only [setGauge_append, setGauge_fresh _ _ _ _ h3, setGauge_fresh _ _ _ _ h4,
    setGauge_fresh _ _ _ _ h5, setGauge_fresh _ _ _ _ h6]
  simp [setGauge, fileCollectors, nameAt, hp, hl, h34, h35, h36, h45, h46, h56,
    Ne.symm h34, Ne.symm h35, Ne.symm h36, Ne.symm h45, Ne.symm h46, Ne.symm h56]

theorem fresh_iff (registry : Registry) (cs : List Registered) :
    Fresh registry cs ↔
      (∀ n ∈ cs.map Registered.name, n ∉ registry.map Registered.name) ∧
      (cs.map Registered.name).Nodup := by
  unfold Fresh
  constructor
  · rintro ⟨h1, h2⟩
    refine ⟨fun n hn => ?_, h2⟩
    obtain ⟨c, hc, rfl⟩ := List.mem_map.mp hn
    exact h1 c hc
  · rintro ⟨h1, h2⟩
    exact ⟨fun c hc => h1 c.name (List.mem_map_of_mem _ hc), h2⟩

theorem fresh_congr (registry : Registry) {cs ds : List Registered}
    (h : cs.map Registered.name = ds.map Registered.name) :
    Fresh registry cs ↔ Fresh registry ds := by
  rw [fresh_iff, fresh_iff, h]

theorem fileCollectors_names (results : Results) {st : CollectorState}
    {entry : String × TestFileParams} {vp vl : HistogramVec}
    (hp : st.pushHistograms entry.1 = some vp) (hl : st.pullHistograms entry.1 = some vl) :
    ([ .pushHistogram entry.1 vp.name, .pullHistogram entry.1 vl.name,
        .gauge (pushDurationGaugeName entry.2) [], .gauge (pullDurationGaugeName entry.2) [],
        .gauge (successPushGaugeName entry.2) [],
        .gauge (successPullGaugeName entry.2) [] ] : List Registered).map Registered.name
      = (fileCollectors results st.pushHistograms st.pullHistograms entry).map
          Registered.name := by
  simp [fileCollectors, nameAt, hp, hl, Registered.name]

theorem collectFile_of_fresh {results : Results} {st : CollectorState}
    {entry : String × TestFileParams} {vp vl vp1 vl1 : HistogramVec}
    (hp : st.pushHistograms entry.1 = some vp) (hl : st.pullHistograms entry.1 = some vl)
    (hop : vp.observe entry.1 (results.pushDuration entry.1) = .ok vp1)
    (hol : vl.observe entry.1 (results.pullDuration entry.1) = .ok vl1)
    (hfresh : Fresh st.registry
      (fileCollectors results st.pushHistograms st.pullHistograms entry)) :
    collectFile results st entry =
      ({ registry := st.registry
            ++ fileCollectors results st.pushHistograms st.pullHistograms entry
         pushHistograms := Function.update st.pushHistograms entry.1 (some vp1)
         pullHistograms := Function.update st.pullHistograms entry.1 (some vl1) }, none) := by
  have hreg := (registerAll_ok_iff _ st.registry _).mpr
    ⟨rfl, (fresh_congr st.registry (fileCollectors_names results hp hl)).mpr hfresh⟩
  unfold collectFile observeAt
  rw [registerFile_eq hp hl, hreg, hp, hl]
  simp only [hop, hol]
  rw [fresh_setGauge hp hl hfresh]

theorem collectFile_none {results : Results} {st st1 : CollectorState}
    {entry : String × TestFileParams} (h : collectFile results st entry = (st1, none)) :
    ∃ vp vl vp1 vl1,
      st.pushHistograms entry.1 = some vp ∧ st.pullHistograms entry.1 = some vl ∧
      vp.observe entry.1 (results.pushDuration entry.1) = .ok vp1 ∧
      vl.observe entry.1 (results.pullDuration entry.1) = .ok vl1 ∧
      Fresh st.registry (fileCollectors results st.pushHistograms st.pullHistograms entry) ∧
      st1 = { registry := st.registry
                ++ fileCollectors results st.pushHistograms st.pullHistograms entry
              pushHistograms := Function.update st.pushHistograms entry.1 (some vp1)
              pullHistograms := Function.update st.pullHistograms entry.1 (some vl1) } := by
  cases hp : st.pushHistograms entry.1 with
  | none =>
    obtain ⟨err, herr⟩ := registerFile_error_of_nil (Or.inl hp)
    unfold collectFile at h
    rw [herr] at h
    simp at h
  | some vp =>
    cases hl : st.pullHistograms entry.1 with
    | none =>
      obtain ⟨err, herr⟩ := registerFile_error_of_nil (Or.inr hl)
      unfold collectFile at h
      rw [herr] at h
      simp at h
    | some vl =>
      have h0 := h
      unfold collectFile observeAt at h
      rw [registerFile_eq hp hl, hp, hl] at h
      split at h
      · simp at h
      · rename_i r6 hr6
        have hfresh := (fresh_congr st.registry (fileCollectors_names results hp hl)).mp
          ((registerAll_ok_iff _ _ _).mp hr6).2
        cases hop : vp.observe entry.1 (results.pushDuration entry.1) with
        | error e =>
          simp [hop] at h
        | ok vp1 =>
          cases hol : vl.observe entry.1 (results.pullDuration entry.1) with
          | error e =>
            simp [hop, hol] at h
          | ok vl1 =>
            refine ⟨vp, vl, vp1, vl1, rfl, rfl, hop, hol, hfresh, ?_⟩
            rw [collectFile_of_fresh hp hl hop hol hfresh] at h0
            simp only [Prod.mk.injEq, and_true] at h0
            exact h0.symm

theorem nameAt_update {histograms : String → Option HistogramVec} {key : String}
    {vec vec1 : HistogramVec} (h : histograms key = some vec) (hname : vec1.name = vec.name)
    (k : String) :
    nameAt (Function.update histograms key (some vec1)) k = nameAt histograms k := by
  unfold nameAt
  by_cases hk : k = key
  · subst hk
    simp [h, hname]
  · simp [Function.update, hk]

theorem fileCollectors_congr (results : Results)
    {p p1 l l1 : String → Option HistogramVec}
    (hp : ∀ k, nameAt p1 k = nameAt p k) (hl : ∀ k, nameAt l1 k = nameAt l k)
    (entry : String × TestFileParams) :
    fileCollectors results p1 l1 entry = fileCollectors results p l entry := by
  simp [fileCollectors, hp, hl]

theorem allCollectors_congr (results : Results)
    {p p1 l l1 : String → Option HistogramVec}
    (hp : ∀ k, nameAt p1 k = nameAt p k) (hl : ∀ k, nameAt l1 k = nameAt l k)
    (files : List (String × TestFileParams)) :
    allCollectors results p1 l1 files = allCollectors results p l files := by
  unfold allCollectors
  have hfun : fileCollectors results p1 l1 = fileCollectors results p l :=
    funext (fileCollectors_congr results hp hl)
  rw [hfun]

theorem allCollectors_cons (results : Results) (p l : String → Option HistogramVec)
    (entry : String × TestFileParams) (files : List (String × TestFileParams)) :
    allCollectors results p l (entry :: files)
      = fileCollectors results p l entry ++ allCollectors results p l files := by
  simp [allCollectors]

theorem fresh_append (registry : Registry) (a b : List Registered) :
    Fresh registry (a ++ b) ↔ Fresh registry a ∧ Fresh (registry ++ a) b := by
  simp only [fresh_iff, List.map_append, List.mem_append, List.nodup_append, List.Disjoint]
  constructor
  · rintro ⟨h1, h2, h3, h4⟩
    refine ⟨⟨fun n hn => h1 n (Or.inl hn), h2⟩, fun n hn => ?_, h3⟩
    rintro (hr | ha)
    · exact h1 n (Or.inr hn) hr
    · exact h4 ha hn
  · rintro ⟨⟨h1, h2⟩, h3, h4⟩
    refine ⟨fun n hn => ?_, h2, h4, fun {n} ha hb => h3 n hb (Or.inr ha)⟩
    rcases hn with hn | hn
    · exact h1 n hn
    · exact fun hr => h3 n hn (Or.inl hr)

theorem collector_none (results : Results) :
    ∀ (files : List (String × TestFileParams)) (st st1 : CollectorState),
      ArtifactoryCollector results st files = (st1, none) →
      (files.map Prod.fst).Nodup →
      (st1.registry
          = st.registry ++ allCollectors results st.pushHistograms st.pullHistograms files ∧
        Fresh st.registry (allCollectors results st.pushHistograms st.pullHistograms files)) ∧
      (∀ key, key ∉ files.map Prod.fst →
        st1.pushHistograms key = st.pushHistograms key ∧
        st1.pullHistograms key = st.pullHistograms key) ∧
      (∀ entry ∈ files, ∃ vp vp1 vl vl1,
        st.pushHistograms entry.1 = some vp ∧
        vp.observe entry.1 (results.pushDuration entry.1) = .ok vp1 ∧
        st1.pushHistograms entry.1 = some vp1 ∧
        st.pullHistograms entry.1 = some vl ∧
        vl.observe entry.1 (results.pullDuration entry.1) = .ok vl1 ∧
        st1.pullHistograms entry.1 = some vl1)
  | [], st, st1, h, _ => by
    unfold ArtifactoryCollector at h
    simp only [Prod.mk.injEq, and_true] at h
    subst h
    simp [allCollectors, Fresh]
  | e :: rest, st, st1, h, hnodup => by
    unfold ArtifactoryCollector at h
    rw [List.map_cons, List.nodup_cons] at hnodup
    cases hc : collectFile results st e with
    | mk st2 o =>
      rw [hc] at h
      cases o with
      | some err => simp at h
      | none =>
        simp only at h
        obtain ⟨vp, vl, vp1, vl1, hp, hl, hop, hol, hfresh, hst2⟩ := collectFile_none hc
        obtain ⟨⟨hreg, hfr⟩, hframe, hfiles⟩ := collector_none results rest st2 st1 h hnodup.2
        have hnp : ∀ k, nameAt st2.pushHistograms k = nameAt st.pushHistograms k := by
          intro k
          rw [hst2]
          exact nameAt_update hp (observe_ok hop).1 k
        have hnl : ∀ k, nameAt st2.pullHistograms k = nameAt st.pullHistograms k := by
          intro k
          rw [hst2]
          exact nameAt_update hl (observe_ok hol).1 k
        rw [allCollectors_congr results hnp hnl] at hreg hfr
        have hreg2 : st2.registry = st.registry
            ++ fileCollectors results st.pushHistograms st.pullHistograms e := by
          rw [hst2]
        have hother : ∀ key, key ≠ e.1 →
            st2.pushHistograms key = st.pushHistograms key ∧
            st2.pullHistograms key = st.pullHistograms key := by
          intro key hkey
          rw [hst2]
          simp [Function.update, hkey]
        have hself : st2.pushHistograms e.1 = some vp1 ∧ st2.pullHistograms e.1 = some vl1 := by
          rw [hst2]
          simp
        refine ⟨⟨?_, ?_⟩, ?_, ?_⟩
        · rw [hreg, hreg2, allCollectors_cons, List.append_assoc]
        · rw [allCollectors_cons, fresh_append]
          rw [hreg2] at hfr
          exact ⟨hfresh, hfr⟩
        · intro key hkey
          rw [List.map_cons, List.mem_cons, not_or] at hkey
          obtain ⟨h1, h2⟩ := hframe key hkey.2
          obtain ⟨h3, h4⟩ := hother key hkey.1
          exact ⟨h1.trans h3, h2.trans h4⟩
        · intro entry hentry
          rcases List.mem_cons.mp hentry with rfl | hmem
          · obtain ⟨h1, h2⟩ := hframe entry.1 hnodup.1
            exact ⟨vp, vp1, vl, vl1, hp, hop, h1.trans hself.1, hl, hol, h2.trans hself.2⟩
          · obtain ⟨wp, wp1, wl, wl1, g1, g2, g3, g4, g5, g6⟩ := hfiles entry hmem
            have hne : entry.1 ≠ e.1 := by
              intro heq
              exact hnodup.1 (heq ▸ List.mem_map_of_mem Prod.fst hmem)
            obtain ⟨h3, h4⟩ := hother entry.1 hne
            exact ⟨wp, wp1, wl, wl1, h3 ▸ g1, g2, g3, h4 ▸ g4, g5, g6⟩

theorem collector_of_fresh (results : Results) :
    ∀ (files : List (String × TestFileParams)) (st : CollectorState),
      (files.map Prod.fst).Nodup →
      Fresh st.registry (allCollectors results st.pushHistograms st.pullHistograms files) →
      (∀ entry ∈ files, ∃ vp vp1 vl vl1,
        st.pushHistograms entry.1 = some vp ∧
        vp.observe entry.1 (results.pushDuration entry.1) = .ok vp1 ∧
        st.pullHistograms entry.1 = some vl ∧
        vl.observe entry.1 (results.pullDuration entry.1) = .ok vl1) →
      ∃ st1, ArtifactoryCollector results st files = (st1, none)
  | [], st, _, _, _ => ⟨st, rfl⟩
  | e :: rest, st, hnodup, hfresh, hobs => by
    rw [List.map_cons, List.nodup_cons] at hnodup
    obtain ⟨vp, vp1, vl, vl1, hp, hop, hl, hol⟩ := hobs e (List.mem_cons_self _ _)
    rw [allCollectors_cons, fresh_append] at hfresh
    have hc := collectFile_of_fresh hp hl hop hol hfresh.1
    unfold ArtifactoryCollector
    rw [hc]
    simp only
    apply collector_of_fresh results rest _ hnodup.2
    · have hnp : ∀ k, nameAt (Function.update st.pushHistograms e.1 (some vp1)) k
          = nameAt st.pushHistograms k := nameAt_update hp (observe_ok hop).1
      have hnl : ∀ k, nameAt (Function.update st.pullHistograms e.1 (some vl1)) k
          = nameAt st.pullHistograms k := nameAt_update hl (observe_ok hol).1
      simp only
      rw [allCollectors_congr results hnp hnl]
      exact hfresh.2
    · intro entry hmem
      obtain ⟨wp, wp1, wl, wl1, g1, g2, g3, g4⟩ := hobs entry (List.mem_cons_of_mem _ hmem)
      have hne : entry.1 ≠ e.1 := by
        intro heq
        exact hnodup.1 (heq ▸ List.mem_map_of_mem Prod.fst hmem)
      exact ⟨wp, wp1, wl, wl1, by simpa [Function.update, hne] using g1, g2,
        by simpa [Function.update, hne] using g3, g4⟩

theorem gatherOne_name (p l : String → Option HistogramVec) (c : Registered) :
    (gatherOne p l c).name = c.name := by
  cases c <;> rfl

theorem mem_Gather {p l : String → Option HistogramVec} {registry : Registry} {f : Family} :
    f ∈ Gather p l registry ↔ ∃ c ∈ registry, gatherOne p l c = f := by
  unfold Gather
  rw [(List.perm_insertionSort _ _).mem_iff, List.mem_map]

theorem Gather_names_perm (p l : String → Option HistogramVec) (registry : Registry) :
    ((Gather p l registry).map Family.name).Perm (registry.map Registered.name) := by
  unfold Gather
  have h := (List.perm_insertionSort (fun a b : Family => a.name ≤ b.name)
    (registry.map (gatherOne p l))).map Family.name
  rw [List.map_map] at h
  have hfun : Family.name ∘ gatherOne p l = Registered.name := funext (gatherOne_name p l)
  rw [hfun] at h
  exact h

theorem Gather_sorted (p l : String → Option HistogramVec) (registry : Registry) :
    (Gather p l registry).Sorted fun a b => a.name ≤ b.name := by
  haveI : IsTotal Family (fun a b => a.name ≤ b.name) := ⟨fun a b => le_total a.name b.name⟩
  haveI : IsTrans Family (fun a b => a.name ≤ b.name) :=
    ⟨fun a b c hab hbc => le_trans hab hbc⟩
  exact List.sorted_insertionSort _ _

theorem Gather_strict (p l : String → Option HistogramVec) {registry : Registry}
    (hnodup : (registry.map Registered.name).Nodup) :
    (Gather p l registry).Sorted fun a b => a.name < b.name := by
  have hs := Gather_sorted p l registry
  have hn : ((Gather p l registry).map Family.name).Nodup :=
    (Gather_names_perm p l registry).nodup_iff.mpr hnodup
  rw [List.Nodup, List.pairwise_map] at hn
  exact (List.Pairwise.and hs hn).imp fun h => lt_of_le_of_ne h.1 h.2

theorem gaugeFamilies_map (p l p1 l1 : String → Option HistogramVec) :
    ∀ registry : Registry,
      gaugeFamilies (registry.map (gatherOne p l))
        = gaugeFamilies (registry.map (gatherOne p1 l1))
  | [] => rfl
  | c :: rest => by
    have ih := gaugeFamilies_map p l p1 l1 rest
    unfold gaugeFamilies at ih ⊢
    cases c <;> simp [gatherOne, List.filter_cons, ih]

theorem gaugeFamilies_Gather (p l p1 l1 : String → Option HistogramVec)
    {registry registry1 : Registry} (hperm : registry1.Perm registry)
    (hnodup : (registry.map Registered.name).Nodup) :
    gaugeFamilies (Gather p1 l1 registry1) = gaugeFamilies (Gather p l registry) := by
  haveI : IsAntisymm Family (fun a b => a.name < b.name) :=
    ⟨fun a b hab hba => absurd hab (lt_asymm hba)⟩
  have hnodup1 : (registry1.map Registered.name).Nodup :=
    (hperm.map Registered.name).nodup_iff.mpr hnodup
  apply List.eq_of_perm_of_sorted (?_ : List.Perm _ _)
    ((Gather_strict p1 l1 hnodup1).filter _) ((Gather_strict p l hnodup).filter _)
  have h1 : (gaugeFamilies (Gather p1 l1 registry1)).Perm
      (gaugeFamilies (registry1.map (gatherOne p1 l1))) :=
    (List.perm_insertionSort _ _).filter _
  have h2 : (gaugeFamilies (Gather p l registry)).Perm
      (gaugeFamilies (registry.map (gatherOne p l))) :=
    (List.perm_insertionSort _ _).filter _
  have h3 : (gaugeFamilies (registry1.map (gatherOne p l))).Perm
      (gaugeFamilies (registry.map (gatherOne p l))) :=
    (hperm.map _).filter _
  rw [gaugeFamilies_map p1 l1 p l] at h1
  exact (h1.trans h3).trans h2.symm

theorem Gather_names (p l p1 l1 : String → Option HistogramVec)
    {registry registry1 : Registry} (hperm : registry1.Perm registry) :
    (Gather p1 l1 registry1).map Family.name = (Gather p l registry).map Family.name := by
  have hs : ∀ (q m : String → Option HistogramVec) (r : Registry),
      ((Gather q m r).map Family.name).Sorted (· ≤ ·) := by
    intro q m r
    rw [List.Sorted, List.pairwise_map]
    exact Gather_sorted q m r
  apply List.eq_of_perm_of_sorted (?_ : List.Perm _ _) (hs p1 l1 registry1) (hs p l registry)
  exact ((Gather_names_perm p1 l1 registry1).trans (hperm.map _)).trans
    (Gather_names_perm p l registry).symm

theorem allCollectors_perm (results : Results) (p l : String → Option HistogramVec)
    {files order : List (String × TestFileParams)} (hperm : order.Perm files) :
    (allCollectors results p l order).Perm (allCollectors results p l files) := by
  unfold allCollectors
  exact hperm.flatMap_right _

theorem mem_allCollectors (results : Results) (p l : String → Option HistogramVec)
    {files : List (String × TestFileParams)} {entry : String × TestFileParams}
    (hmem : entry ∈ files) :
    Registered.pushHistogram entry.1 (nameAt p entry.1) ∈ allCollectors results p l files ∧
    Registered.pullHistogram entry.1 (nameAt l entry.1) ∈ allCollectors results p l files := by
  unfold allCollectors
  simp only [List.mem_flatMap]
  exact ⟨⟨entry, hmem, by simp [fileCollectors]⟩, ⟨entry, hmem, by simp [fileCollectors]⟩⟩

theorem newHistogram_ok {buckets : List ℚ} {h0 : Histogram}
    (h : newHistogram buckets = .ok h0) : h0.sampleCount = 0 ∧ h0.sampleSum = 0 := by
  unfold newHistogram at h
  by_cases hs : strictlyIncreasing (if buckets = [] then DefBuckets else buckets) = true
  · rw [if_pos hs] at h
    injection h with h
    subst h
    exact ⟨rfl, rfl⟩
  · rw [if_neg hs] at h
    cases h

theorem sampleAt_observe {p p1 : String → Option HistogramVec} {key : String} {v : ℚ}
    {vec vec1 : HistogramVec} (h0 : p key = some vec) (hobs : vec.observe key v = .ok vec1)
    (h1 : p1 key = some vec1) :
    sampleCountAt p1 key key = sampleCountAt p key key + 1 ∧
    sampleSumAt p1 key key = f64add (sampleSumAt p key key) v := by
  obtain ⟨-, -, hist, hchild, hcase⟩ := observe_ok hobs
  unfold sampleCountAt sampleSumAt
  rw [h0, h1]
  simp only [hchild]
  rcases hcase with hc | ⟨hc, hnew⟩
  · rw [hc]
    exact ⟨rfl, rfl⟩
  · rw [hc]
    obtain ⟨hcount, hsum⟩ := newHistogram_ok hnew
    simp [Histogram.Observe, hcount, hsum]

theorem handler_of_collector {files : List (String × TestFileParams)} {results : Results}
    {p l : String → Option HistogramVec} {st : CollectorState}
    (h : ArtifactoryCollector results
      { registry := NewRegistry, pushHistograms := p, pullHistograms := l } files = (st, none)) :
    artifactoryTestHandler files results p l =
      { pushHistograms := st.pushHistograms, pullHistograms := st.pullHistograms
        exposition := .ok (Gather st.pushHistograms st.pullHistograms st.registry) } := by
  unfold artifactoryTestHandler
  simp only
  rw [h]

theorem handler_ok {files : List (String × TestFileParams)} {results : Results}
    {p l : String → Option HistogramVec} {families : List Family}
    (h : (artifactoryTestHandler files results p l).exposition = .ok families) :
    ∃ st, ArtifactoryCollector results
      { registry := NewRegistry, pushHistograms := p, pullHistograms := l } files = (st, none) := by
  unfold artifactoryTestHandler at h
  simp only at h
  split at h
  · simp at h
  · rename_i st hst
    exact ⟨st, hst⟩

theorem sortSamples_observeChild (children : List (String × Histogram)) (label : String)
    (v : ℚ) :
    sortSamples (observeChild children label v)
      = observeChild (sortSamples children) label v := by
  unfold sortSamples observeChild
  symm
  apply List.map_insertionSort
  intro a _ b _
  have h : ∀ c : String × Histogram,
      (if c.1 = label then (c.1, c.2.Observe v) else c).1 = c.1 := by
    intro c
    split <;> rfl
  rw [h a, h b]

theorem fresh_nil (cs : List Registered) :
    Fresh NewRegistry cs ↔ (cs.map Registered.name).Nodup := by
  rw [fresh_iff]
  simp [NewRegistry]

theorem leg_accumulates {q0 q1 q2 : String → Option HistogramVec} {key : String} {v : ℚ}
    {vec0 vec1 vec2 : HistogramVec}
    (h0 : q0 key = some vec0) (hobs1 : vec0.observe key v = .ok vec1)
    (h1 : q1 key = some vec1) (hobs2 : vec1.observe key v = .ok vec2)
    (h2 : q2 key = some vec2) :
    q2 key = some { vec1 with children := observeChild vec1.children key v } ∧
    sampleCountAt q1 key key = sampleCountAt q0 key key + 1 ∧
    sampleSumAt q1 key key = f64add (sampleSumAt q0 key key) v ∧
    sampleCountAt q2 key key = sampleCountAt q1 key key + 1 ∧
    sampleSumAt q2 key key = f64add (sampleSumAt q1 key key) v := by
  obtain ⟨-, -, hist, hchild, -⟩ := observe_ok hobs1
  have hvec2 := observe_of_child v hchild
  rw [hobs2] at hvec2
  injection hvec2 with hvec2
  have ha := sampleAt_observe h0 hobs1 h1
  have hb := sampleAt_observe h1 hobs2 h2
  exact ⟨by rw [h2, hvec2], ha.1, ha.2, hb.1, hb.2⟩

theorem f64add_small :
    f64add 0 2 = 2 ∧ f64add 2 2 = 4 ∧ f64add 0 3 = 3 ∧ f64add 3 3 = 6 := by
  unfold f64add
  refine ⟨?_, ?_, ?_, ?_⟩
  · simpa using round64_of_eq_int (0 + 2) 2 (by norm_num) (by norm_num)
  · simpa using round64_of_eq_int (2 + 2) 4 (by norm_num) (by norm_num)
  · simpa using round64_of_eq_int (0 + 3) 3 (by norm_num) (by norm_num)
  · simpa using round64_of_eq_int (3 + 3) 6 (by norm_num) (by norm_num)

theorem gaugeNames_unsetFile :
    pushDurationGaugeName unsetFile = "artifactory_test_push_1mb_duration_seconds" ∧
    pullDurationGaugeName unsetFile = "artifactory_test_pull_1mb_duration_seconds" ∧
    successPushGaugeName unsetFile = "artifactory_test_push_1mb_success" ∧
    successPullGaugeName unsetFile = "artifactory_test_pull_1mb_success" := by
  decide

theorem gaugeNames_twoMbFile :
    pushDurationGaugeName twoMbFile = "artifactory_test_push_2mb_duration_seconds" ∧
    pullDurationGaugeName twoMbFile = "artifactory_test_pull_2mb_duration_seconds" ∧
    successPushGaugeName twoMbFile = "artifactory_test_push_2mb_success" ∧
    successPullGaugeName twoMbFile = "artifactory_test_pull_2mb_success" := by
  decide

theorem firstRequest_exposition : firstRequest.exposition = .ok firstExposition := by
  simp +decide [firstRequest, firstExposition, artifactoryTestHandler, ArtifactoryCollector,
    collectFile, registerFile, histogramCollector, MustRegister, NewRegistry, setGauge,
    observeAt, Gather, gatherOne, sortSamples, pushHistogramsA, pullHistogramsA,
    NewHistogramVec, HistogramVec.observe, HistogramVec.child, newHistogram,
    strictlyIncreasing, Histogram.new, Histogram.Observe, resultsA, probeFile, commitPush,
    commitPull, pushLeg, pullLeg, pushOk, pullOk, Results.empty, unsetFile,
    gaugeNames_unsetFile.1, gaugeNames_unsetFile.2.1, gaugeNames_unsetFile.2.2.1,
    gaugeNames_unsetFile.2.2.2, Registered.name, Family.name, bind, Except.bind,
    List.insertionSort, List.orderedInsert, String.le_iff_toList_le,
    f64add_small.1, f64add_small.2.2.1]

set_option maxRecDepth 8000 in
theorem secondRequest_exposition : secondRequest.exposition = .ok secondExposition := by
  simp +decide [secondRequest, nextRequest, firstRequest, secondExposition,
    artifactoryTestHandler, ArtifactoryCollector,
    collectFile, registerFile, histogramCollector, MustRegister, NewRegistry, setGauge,
    observeAt, Gather, gatherOne, sortSamples, pushHistogramsA, pullHistogramsA,
    NewHistogramVec, HistogramVec.observe, HistogramVec.child, observeChild, newHistogram,
    strictlyIncreasing, Histogram.new, Histogram.Observe, resultsA, probeFile, commitPush,
    commitPull, pushLeg, pullLeg, pushOk, pullOk, Results.empty, unsetFile,
    gaugeNames_unsetFile.1, gaugeNames_unsetFile.2.1, gaugeNames_unsetFile.2.2.1,
    gaugeNames_unsetFile.2.2.2, Registered.name, Family.name, bind, Except.bind,
    List.insertionSort, List.orderedInsert, String.le_iff_toList_le,
    f64add_small.1, f64add_small.2.1, f64add_small.2.2.1, f64add_small.2.2.2]

set_option maxRecDepth 8000 in
theorem firstRequestAB_exposition :
    (artifactoryTestHandler [("a", unsetFile), ("b", twoMbFile)] resultsAB pushHistogramsAB
      pullHistogramsAB).exposition = .ok firstExpositionAB := by
  simp +decide [firstExpositionAB, artifactoryTestHandler, ArtifactoryCollector,
    collectFile, registerFile, histogramCollector, MustRegister, NewRegistry, setGauge,
    observeAt, Gather, gatherOne, sortSamples, pushHistogramsAB, pullHistogramsAB,
    pushHistogramsA, pullHistogramsA,
    NewHistogramVec, HistogramVec.observe, HistogramVec.child, newHistogram,
    strictlyIncreasing, Histogram.new, Histogram.Observe, resultsAB, resultsA, probeFile,
    commitPush, commitPull, pushLeg, pullLeg, pushOk, pullOk, Results.empty, unsetFile,
    twoMbFile,
    gaugeNames_unsetFile.1, gaugeNames_unsetFile.2.1, gaugeNames_unsetFile.2.2.1,
    gaugeNames_unsetFile.2.2.2, gaugeNames_twoMbFile.1, gaugeNames_twoMbFile.2.1,
    gaugeNames_twoMbFile.2.2.1, gaugeNames_twoMbFile.2.2.2,
    Registered.name, Family.name, bind, Except.bind,
    List.insertionSort, List.orderedInsert, String.le_iff_toList_le,
    f64add_small.1, f64add_small.2.2.1]

theorem request_panics_on_decreasing_bounds :
    (artifactoryTestHandler [("a", unsetFile)] resultsA
      (Function.update (fun _ => none) "a"
        (some (NewHistogramVec "artifactory_test_push_1mb_duration_seconds_histogram" [5, 1])))
      pullHistogramsA).exposition
      = .error "histogram buckets must be in increasing order" := by
  simp +decide [artifactoryTestHandler, ArtifactoryCollector,
    collectFile, registerFile, histogramCollector, MustRegister, NewRegistry,
    observeAt, pullHistogramsA,
    NewHistogramVec, HistogramVec.observe, HistogramVec.child, newHistogram,
    strictlyIncreasing, resultsA, probeFile, commitPush,
    commitPull, pushLeg, pullLeg, pushOk, pullOk, Results.empty, unsetFile,
    gaugeNames_unsetFile.1, gaugeNames_unsetFile.2.1, gaugeNames_unsetFile.2.2.1,
    gaugeNames_unsetFile.2.2.2, Registered.name, bind, Except.bind]

/-- C10 (as stated, refuted): two consecutive requests against the same
stored results of the one file `a`.  The first exposition shows one sample in
the push and in the pull histogram, the second shows two samples and doubled
sums, so the two expositions differ: the observations of the first request
are state that the second request reads. -/
theorem C10_histograms_persist :
    firstRequest.exposition = .ok firstExposition ∧
    secondRequest.exposition = .ok secondExposition ∧
    firstRequest.exposition ≠ secondRequest.exposition ∧
    sampleCountAt pushHistogramsA "a" "a" = 0 ∧
    sampleCountAt firstRequest.pushHistograms "a" "a" = 1 ∧
    sampleCountAt secondRequest.pushHistograms "a" "a" = 2 := by
  refine ⟨firstRequest_exposition, secondRequest_exposition, ?_, ?_, ?_, ?_⟩
  · rw [firstRequest_exposition, secondRequest_exposition]
    simp [firstExposition, secondExposition]
  · simp [sampleCountAt, pushHistogramsA, NewHistogramVec, HistogramVec.child]
  · simp [sampleCountAt, firstRequest, artifactoryTestHandler, ArtifactoryCollector,
      collectFile, registerFile, histogramCollector, MustRegister, NewRegistry, observeAt,
      pushHistogramsA, pullHistogramsA, NewHistogramVec, HistogramVec.observe,
      HistogramVec.child, newHistogram, strictlyIncreasing, Histogram.new, Histogram.Observe,
      gaugeNames_unsetFile.1, gaugeNames_unsetFile.2.1, gaugeNames_unsetFile.2.2.1,
      gaugeNames_unsetFile.2.2.2, Registered.name, bind, Except.bind]
  · simp [sampleCountAt, secondRequest, nextRequest, firstRequest, artifactoryTestHandler,
      ArtifactoryCollector,
      collectFile, registerFile, histogramCollector, MustRegister, NewRegistry, observeAt,
      pushHistogramsA, pullHistogramsA, NewHistogramVec, HistogramVec.observe,
      HistogramVec.child, observeChild, newHistogram, strictlyIncreasing, Histogram.new,
      Histogram.Observe,
      gaugeNames_unsetFile.1, gaugeNames_unsetFile.2.1, gaugeNames_unsetFile.2.2.1,
      gaugeNames_unsetFile.2.2.2, Registered.name, bind, Except.bind]

/-- C10 (amended): every request builds its registry and its four gauges per
file anew, while the push and pull duration histograms are made once at
startup and shared by all requests.  Take distinct file names, a first request
whose loop visits the files in the order `testFiles` and which completes, and
a second request against the same stored results whose loop visits the files
in any order `order`.  Then the second request completes too; its
exposition lists families of the same names in the same order, each name
once; its gauge families are equal to those of the first exposition; and for
every file the push (pull) histogram family of the second exposition is the
one of the first exposition after one more observation of the stored push
(pull) duration (`observeChild`: one more sample, the duration added to the
sum, one more in every bucket the duration fits in), so that the sample count
grows by one with every request. -/
theorem C10_gauges_rebuilt_histograms_accumulate
    (testFiles order : List (String × TestFileParams)) (results : Results)
    (pushHistograms pullHistograms : String → Option HistogramVec)
    (first second : HandlerResult) (families1 : List Family)
    (hnodup : (testFiles.map Prod.fst).Nodup)
    (horder : order.Perm testFiles)
    (hfirst : first = artifactoryTestHandler testFiles results pushHistograms pullHistograms)
    (hsecond : second = nextRequest order results first)
    (hok : first.exposition = .ok families1) :
    ∃ families2,
      second.exposition = .ok families2 ∧
      families2.map Family.name = families1.map Family.name ∧
      (families1.map Family.name).Nodup ∧
      gaugeFamilies families2 = gaugeFamilies families1 ∧
      ∀ entry ∈ testFiles,
        (∃ vec0 vec1,
          pushHistograms entry.1 = some vec0 ∧
          vec0.observe entry.1 (results.pushDuration entry.1) = .ok vec1 ∧
          first.pushHistograms entry.1 = some vec1 ∧
          Family.histogram vec0.name (sortSamples vec1.children) ∈ families1 ∧
          Family.histogram vec0.name
            (observeChild (sortSamples vec1.children) entry.1 (results.pushDuration entry.1))
            ∈ families2 ∧
          second.pushHistograms entry.1 = some { vec1 with
            children := observeChild vec1.children entry.1 (results.pushDuration entry.1) } ∧
          sampleCountAt first.pushHistograms entry.1 entry.1
            = sampleCountAt pushHistograms entry.1 entry.1 + 1 ∧
          sampleSumAt first.pushHistograms entry.1 entry.1
            = f64add (sampleSumAt pushHistograms entry.1 entry.1)
                (results.pushDuration entry.1) ∧
          sampleCountAt second.pushHistograms entry.1 entry.1
            = sampleCountAt first.pushHistograms entry.1 entry.1 + 1 ∧
          sampleSumAt second.pushHistograms entry.1 entry.1
            = f64add (sampleSumAt first.pushHistograms entry.1 entry.1)
                (results.pushDuration entry.1)) ∧
        (∃ vec0 vec1,
          pullHistograms entry.1 = some vec0 ∧
          vec0.observe entry.1 (results.pullDuration entry.1) = .ok vec1 ∧
          first.pullHistograms entry.1 = some vec1 ∧
          Family.histogram vec0.name (sortSamples vec1.children) ∈ families1 ∧
          Family.histogram vec0.name
            (observeChild (sortSamples vec1.children) entry.1 (results.pullDuration entry.1))
            ∈ families2 ∧
          second.pullHistograms entry.1 = some { vec1 with
            children := observeChild vec1.children entry.1 (results.pullDuration entry.1) } ∧
          sampleCountAt first.pullHistograms entry.1 entry.1
            = sampleCountAt pullHistograms entry.1 entry.1 + 1 ∧
          sampleSumAt first.pullHistograms entry.1 entry.1
            = f64add (sampleSumAt pullHistograms entry.1 entry.1)
                (results.pullDuration entry.1) ∧
          sampleCountAt second.pullHistograms entry.1 entry.1
            = sampleCountAt first.pullHistograms entry.1 entry.1 + 1 ∧
          sampleSumAt second.pullHistograms entry.1 entry.1
            = f64add (sampleSumAt first.pullHistograms entry.1 entry.1)
                (results.pullDuration entry.1)) := by
  subst hfirst
  obtain ⟨st1, hst1⟩ := handler_ok hok
  have hfirst := handler_of_collector hst1
  rw [hfirst] at hok hsecond ⊢
  simp only [Except.ok.injEq] at hok
  obtain ⟨⟨hreg1, hfr1⟩, hframe1, hfiles1⟩ :=
    collector_none results testFiles _ st1 hst1 hnodup
  simp only at hreg1 hfr1 hframe1 hfiles1
  -- the names of the vectors are those of the start
  have hnp : ∀ k, nameAt st1.pushHistograms k = nameAt pushHistograms k := by
    intro k
    by_cases hk : k ∈ testFiles.map Prod.fst
    · obtain ⟨entry, hmem, rfl⟩ := List.mem_map.mp hk
      obtain ⟨vp, vp1, vl, vl1, g1, g2, g3, g4, g5, g6⟩ := hfiles1 entry hmem
      simp [nameAt, g1, g3, (observe_ok g2).1]
    · rw [nameAt, nameAt, (hframe1 k hk).1]
  have hnl : ∀ k, nameAt st1.pullHistograms k = nameAt pullHistograms k := by
    intro k
    by_cases hk : k ∈ testFiles.map Prod.fst
    · obtain ⟨entry, hmem, rfl⟩ := List.mem_map.mp hk
      obtain ⟨vp, vp1, vl, vl1, g1, g2, g3, g4, g5, g6⟩ := hfiles1 entry hmem
      simp [nameAt, g4, g6, (observe_ok g5).1]
    · rw [nameAt, nameAt, (hframe1 k hk).2]
  have hnodup2 : (order.map Prod.fst).Nodup := (horder.map Prod.fst).nodup_iff.mpr hnodup
  have hperm := allCollectors_perm results pushHistograms pullHistograms horder
  have hnames1 := (fresh_nil _).mp hfr1
  -- the second request completes
  obtain ⟨st2, hst2⟩ := collector_of_fresh results order
    { registry := NewRegistry, pushHistograms := st1.pushHistograms
      pullHistograms := st1.pullHistograms } hnodup2
    (by
      simp only
      rw [allCollectors_congr results hnp hnl, fresh_nil]
      exact (hperm.map Registered.name).nodup_iff.mpr hnames1)
    (by
      intro entry hmem
      obtain ⟨vp, vp1, vl, vl1, g1, g2, g3, g4, g5, g6⟩ :=
        hfiles1 entry (horder.subset hmem)
      obtain ⟨-, -, hp, hcp, -⟩ := observe_ok g2
      obtain ⟨-, -, hl, hcl, -⟩ := observe_ok g5
      exact ⟨vp1, _, vl1, _, g3, observe_of_child _ hcp, g6, observe_of_child _ hcl⟩)
  have hsecond2 := handler_of_collector hst2
  obtain ⟨⟨hreg2, -⟩, -, hfiles2⟩ := collector_none results order _ st2 hst2 hnodup2
  simp only at hreg2 hfiles2
  rw [allCollectors_congr results hnp hnl] at hreg2
  have hreg1a : st1.registry = allCollectors results pushHistograms pullHistograms testFiles := by
    rw [hreg1]
    rfl
  have hreg2a : st2.registry = allCollectors results pushHistograms pullHistograms order := by
    rw [hreg2]
    rfl
  have hperm2 : st2.registry.Perm st1.registry := by
    rw [hreg1a, hreg2a]
    exact hperm
  have hnames1a : (st1.registry.map Registered.name).Nodup := by
    rw [hreg1a]
    exact hnames1
  have hsec : second = { pushHistograms := st2.pushHistograms
                         pullHistograms := st2.pullHistograms
                         exposition := .ok (Gather st2.pushHistograms st2.pullHistograms
                           st2.registry) } := by
    rw [hsecond]
    unfold nextRequest
    exact hsecond2
  subst hsec
  subst hok
  refine ⟨_, rfl, Gather_names _ _ _ _ hperm2, ?_,
    gaugeFamilies_Gather _ _ _ _ hperm2 hnames1a, ?_⟩
  · exact (Gather_names_perm _ _ _).nodup_iff.mpr hnames1a
  · intro entry hmem
    obtain ⟨vp, vp1, vl, vl1, g1, g2, g3, g4, g5, g6⟩ := hfiles1 entry hmem
    obtain ⟨wp, wp1, wl, wl1, k1, k2, k3, k4, k5, k6⟩ := hfiles2 entry (horder.symm.subset hmem)
    rw [g3] at k1
    rw [g6] at k4
    injection k1 with k1
    injection k4 with k4
    subst k1
    subst k4
    obtain ⟨m1, m2⟩ := mem_allCollectors results pushHistograms pullHistograms hmem
    obtain ⟨n1, n2⟩ := mem_allCollectors results pushHistograms pullHistograms
      (horder.symm.subset hmem)
    rw [← hreg1a] at m1 m2
    rw [← hreg2a] at n1 n2
    have hname0p : nameAt pushHistograms entry.1 = vp.name := by simp [nameAt, g1]
    have hname0l : nameAt pullHistograms entry.1 = vl.name := by simp [nameAt, g4]
    rw [hname0p] at m1 n1
    rw [hname0l] at m2 n2
    obtain ⟨a1, a2, a3, a4, a5⟩ := leg_accumulates g1 g2 g3 k2 k3
    obtain ⟨b1, b2, b3, b4, b5⟩ := leg_accumulates g4 g5 g6 k5 k6
    refine ⟨⟨vp, vp1, g1, g2, g3, ?_, ?_, a1, a2, a3, a4, a5⟩,
      ⟨vl, vl1, g4, g5, g6, ?_, ?_, b1, b2, b3, b4, b5⟩⟩
    · exact mem_Gather.mpr ⟨_, m1, by simp [gatherOne, g3]⟩
    · rw [← sortSamples_observeChild]
      exact mem_Gather.mpr ⟨_, n1, by simp [gatherOne, a1]⟩
    · exact mem_Gather.mpr ⟨_, m2, by simp [gatherOne, g6]⟩
    · rw [← sortSamples_observeChild]
      exact mem_Gather.mpr ⟨_, n2, by simp [gatherOne, b1]⟩

theorem C10_gauges_rebuilt_histograms_accumulate_witness :
    ([("a", unsetFile), ("b", twoMbFile)].map Prod.fst).Nodup ∧
    [("b", twoMbFile), ("a", unsetFile)].Perm [("a", unsetFile), ("b", twoMbFile)] ∧
    (artifactoryTestHandler [("a", unsetFile), ("b", twoMbFile)] resultsAB pushHistogramsAB
      pullHistogramsAB).exposition = .ok firstExpositionAB ∧
    ∃ families2,
      (nextRequest [("b", twoMbFile), ("a", unsetFile)] resultsAB
        (artifactoryTestHandler [("a", unsetFile), ("b", twoMbFile)] resultsAB
          pushHistogramsAB pullHistogramsAB)).exposition = .ok families2 ∧
      families2.map Family.name = firstExpositionAB.map Family.name ∧
      gaugeFamilies families2 = gaugeFamilies firstExpositionAB ∧
      Family.histogram "artifactory_test_push_1mb_duration_seconds_histogram"
        [("a", { buckets := [(1, 0), (5, 2)], sampleCount := 2, sampleSum := 4 })]
        ∈ families2 := by
  obtain ⟨families2, h1, h2, -, h3, h4⟩ :=
    C10_gauges_rebuilt_histograms_accumulate [("a", unsetFile), ("b", twoMbFile)]
      [("b", twoMbFile), ("a", unsetFile)] resultsAB pushHistogramsAB pullHistogramsAB
      _ _ firstExpositionAB (by simp) (List.Perm.swap _ _ _) rfl rfl
      firstRequestAB_exposition
  obtain ⟨⟨vec0, vec1, e0, e1, -, -, m2, -⟩, -⟩ := h4 ("a", unsetFile) (by simp)
  have hstart : pushHistogramsAB "a"
      = some (NewHistogramVec "artifactory_test_push_1mb_duration_seconds_histogram" [1, 5]) := by
    simp [pushHistogramsAB, pushHistogramsA, Function.update]
  have hd : resultsAB.pushDuration "a" = 2 := by
    simp [resultsAB, resultsA, probeFile, commitPush, commitPull, pushLeg, pullLeg, pushOk,
      pullOk, Results.empty, Function.update]
  simp only [hstart, Option.some.injEq] at e0
  subst e0
  simp only [hd] at e1 m2
  have hobs : (NewHistogramVec "artifactory_test_push_1mb_duration_seconds_histogram"
      [1, 5]).observe "a" 2
      = .ok { name := "artifactory_test_push_1mb_duration_seconds_histogram"
              buckets := [1, 5]
              children := [("a", { buckets := [(1, 0), (5, 1)], sampleCount := 1
                                   sampleSum := 2 })] } := by
    simp [NewHistogramVec, HistogramVec.observe, HistogramVec.child, newHistogram,
      strictlyIncreasing, Histogram.new, Histogram.Observe, f64add_small.1]
    norm_num
  rw [hobs] at e1
  simp only [Except.ok.injEq] at e1
  subst e1
  have hfam : observeChild (sortSamples [(("a" : String),
      ({ buckets := [(1, 0), (5, 1)], sampleCount := 1, sampleSum := 2 } : Histogram))]) "a" 2
      = [("a", { buckets := [(1, 0), (5, 2)], sampleCount := 2, sampleSum := 4 })] := by
    simp [sortSamples, observeChild, Histogram.Observe, f64add_small.2.1]
    norm_num
  simp only [NewHistogramVec] at m2
  rw [hfam] at m2
  exact ⟨by simp, List.Perm.swap _ _ _, firstRequestAB_exposition, families2, h1, h2, h3, m2⟩

/-! ## Loading the configuration -/

theorem UnmarshalYAML_ok_testFiles {decoded : Except String Config} {c : Config}
    (h : Config.UnmarshalYAML decoded = .ok c) : c.TestFiles ≠ none := by
  unfold Config.UnmarshalYAML at h
  split at h
  · exact absurd h (by simp)
  · rename_i s
    split at h
    · exact absurd h (by simp)
    · rename_i files hfiles
      split at h
      · exact absurd h (by simp)
      · split at h
        · exact absurd h (by simp)
        · injection h with h
          subst h
          rw [hfiles]
          simp

/-- C11 (the code at the failing input): a configuration whose `test_files`
is an empty mapping is accepted by `Config.UnmarshalYAML` and by
`LoadConfig`, although it defines no test file: the file count is 0, and
`main` reaches the probe loop without a fatal exit (with no file the budget
is never compared with a timeout). -/
theorem C11_empty_test_files_accepted :
    Config.UnmarshalYAML (.ok confEmpty) = .ok confEmpty ∧
    LoadConfig (.ok confEmpty) = .ok confEmpty ∧
    (mapEntries confEmpty.TestFiles).length = 0 ∧
    ∃ st, loadAndStart okEnv (.ok confEmpty) = .ok st := by
  have h1 : Config.UnmarshalYAML (.ok confEmpty) = .ok confEmpty := by
    simp [Config.UnmarshalYAML, confEmpty]
  have h2 : LoadConfig (.ok confEmpty) = .ok confEmpty := by
    simp [LoadConfig, h1]
  refine ⟨h1, h2, by simp [confEmpty, mapEntries], ?_⟩
  simp only [loadAndStart, h2]
  norm_num [startup, confEmpty, startupFiles, resolveTestsInterval, resolveHandlerTimeout,
    mapEntries, seconds_zero]

end ArtifactoryExporter
